import Mathlib

/-!
The lifecycle runner of daemon-helper (`helper.go`): a small-step interleaving model
of `defaultDaemonRunner`, and the properties of its specification.

* The struct fields of `defaultDaemonRunner` are fields of `State`.
* Every goroutine of the program is a control point in `State`:
  the caller of `Begin` (`BeginPc`, named after the line of `helper.go` that is
  executed next), the run-loop goroutines spawned at line 83 (counted per control
  point, since they run the same code and have no local state except the received
  signal), and the reload goroutine of the rescheduler (`WorkerPc`).
* One `Action` is one atomic step of one goroutine, or one completed channel send
  by a caller of `SignalReload` / `SignalShutdown` (or by the signal package, once
  line 110 has registered the channel).
* Calls of the managed `Daemon` take time: each is a call step followed, later, by
  a return step, and the call is appended to `State.calls` when it starts.
* The rescheduler is an imported package; its `Run`, `Wait` and completion step follow
  section 4.2 of the specification (a running flag and a pending flag).
* Logging and timing statements have no effect on the state and are skipped.
* An execution is a schedule (a list of actions) run from `newRunner`; a property of
  "every interleaving" is a property of every schedule.
-/

namespace DaemonHelper

/-! ### The runner and its goroutines -/

/-- Values sent on `sigChan` (`syscall.SIGHUP`, `syscall.SIGTERM`, `syscall.SIGINT`). -/
inductive Signal where
  | SIGHUP
  | SIGTERM
  | SIGINT
  deriving DecidableEq, Repr

/-- One invocation of the `Daemon` interface, with its boolean argument. -/
inductive Call where
  | BuildUp (startup : Bool)
  | TearDown (stopping : Bool)
  deriving DecidableEq, Repr

/-- Control point of the goroutine that calls `Begin`: `idle` is outside `Begin`
(the `beginMutex` is free), `Lnn` is "line nn of helper.go is executed next", and
`L105run` / `L116run` are "inside `BuildUp(true)`" / "inside `TearDown(true)`". -/
inductive BeginPc where
  | idle
  | L77
  | L82
  | L83
  | L105
  | L105run
  | L106
  | L108
  | L111
  | L112
  | L113
  | L116
  | L116run
  | L119
  | L120
  deriving DecidableEq, Repr

/-- Control point of the goroutine that executes the reload body (lines 134-141):
`off` is "no reload goroutine", `L136run` / `L139run` are "inside `TearDown(false)`" /
"inside `BuildUp(false)`", and `finish` is the completion check of the rescheduler
after the body has returned. -/
inductive WorkerPc where
  | off
  | L134
  | L136
  | L136run
  | L139
  | L139run
  | L141
  | finish
  deriving DecidableEq, Repr

/-- The runner together with the control points of its goroutines. -/
structure State where
  /-- Field `sigChan`: `none` is the nil channel, `some b` a channel of capacity 1
  whose buffer is `b`. -/
  sigChan : Option (Option Signal)
  /-- Field `doneChan`: `true` once the channel has been closed. -/
  doneChan : Bool
  isStarting : Bool
  isReloading : Bool
  isStopping : Bool
  isActive : Bool
  /-- Rescheduler flag "currently running". -/
  running : Bool
  /-- Rescheduler flag "one more run requested". -/
  pending : Bool
  beginPc : BeginPc
  /-- Run-loop goroutines at the `select` of line 85. -/
  loopSelect : Nat
  /-- Run-loop goroutines that received `SIGHUP` and are about to execute line 90. -/
  loopHup : Nat
  /-- Run-loop goroutines that received another signal and are about to execute line 93. -/
  loopTerm : Nat
  /-- Run-loop goroutines whose `Wait` has returned and that are about to execute line 95. -/
  loopClose : Nat
  worker : WorkerPc
  /-- A goroutine panicked (`close` of a closed channel): the process is gone. -/
  panicked : Bool
  /-- Calls received by the managed `Daemon`, oldest first. -/
  calls : List Call
  deriving DecidableEq, Repr

/-- One atomic step of the program or of its environment. -/
inductive Action where
  /-- A caller invokes `Begin` and acquires `beginMutex` (line 75). -/
  | callBegin
  /-- The goroutine inside `Begin` executes its next statement. -/
  | beginStep
  /-- A send on `sigChan` completes (lines 62, 69, or a signal delivered through
  `signal.Notify`). -/
  | signal (sig : Signal)
  /-- A run-loop goroutine takes `case sig := <-d.sigChan` (line 86). -/
  | loopRecv
  /-- A run-loop goroutine takes `case <-d.doneChan` (line 98) and returns. -/
  | loopDone
  /-- A run-loop goroutine executes `d.schedReload.Run()` (line 90). -/
  | loopRun
  /-- The `d.schedReload.Wait()` of a run-loop goroutine returns (line 93). -/
  | loopWait
  /-- A run-loop goroutine executes `close(d.doneChan)` and returns (lines 95-96). -/
  | loopClose
  /-- The reload goroutine executes its next statement. -/
  | worker
  deriving DecidableEq, Repr

/-- Outcome of a channel send as seen by the sender. -/
inductive SendResult where
  /-- The value was put into the buffer and the send returned. -/
  | sent (s : State)
  /-- The buffer is occupied: the sender waits until the run loop receives. -/
  | blockedFull
  /-- The channel is nil: the send never completes. -/
  | blockedNil
  deriving DecidableEq, Repr

/-- The runner built at lines 127-143: `doneChan` open, `sigChan` not set (nil),
all flags false, rescheduler idle, no goroutine started. -/
def newRunner : State where
  sigChan := none
  doneChan := false
  isStarting := false
  isReloading := false
  isStopping := false
  isActive := false
  running := false
  pending := false
  beginPc := BeginPc.idle
  loopSelect := 0
  loopHup := 0
  loopTerm := 0
  loopClose := 0
  worker := WorkerPc.off
  panicked := false
  calls := []

/-- Constructor `NewDaemonRunner` (lines 123-144): `none` models the nil arguments and
the nil result. -/
def NewDaemonRunner {D L : Type} (daemonIn : Option D) (logger : Option L) : Option State :=
  match daemonIn, logger with
  | some _, some _ => some newRunner
  | _, _ => none

/-- Accessor `Starting` (lines 43-45). -/
def Starting (s : State) : Bool := s.isStarting

/-- Accessor `Reloading` (lines 47-49). -/
def Reloading (s : State) : Bool := s.isReloading

/-- Accessor `Stopping` (lines 51-53). -/
def Stopping (s : State) : Bool := s.isStopping

/-- Accessor `Active` (lines 55-57). -/
def Active (s : State) : Bool := s.isActive && !s.isReloading

/-- The statement `d.sigChan <- sig` (lines 62, 69). -/
def chanSend (s : State) (sig : Signal) : SendResult :=
  match s.sigChan with
  | none => SendResult.blockedNil
  | some none => SendResult.sent { s with sigChan := some (some sig) }
  | some (some _) => SendResult.blockedFull

/-- Method `SignalReload` (lines 60-64): the send of `syscall.SIGHUP`. -/
def SignalReload (s : State) : SendResult := chanSend s Signal.SIGHUP

/-- Method `SignalShutdown` (lines 67-71): the send of `syscall.SIGTERM`. -/
def SignalShutdown (s : State) : SendResult := chanSend s Signal.SIGTERM

/-! ### The rescheduler (imported package, modelled from section 4.2 of the spec) -/

/-- Modelled from the spec: `Rescheduler.Run` of the imported rescheduler package
(spec 4.2, `Trigger`): if no reload is executing, one is started asynchronously;
otherwise one more run is recorded as owed, once. -/
def schedRun (s : State) : State :=
  if s.running then { s with pending := true }
  else { s with running := true, worker := WorkerPc.L134 }

/-- Modelled from the spec: `Rescheduler.Wait` of the imported rescheduler package
(spec 4.2): the caller can proceed exactly when no execution is running and none is
pending. -/
def schedWaitReady (s : State) : Bool := !s.running && !s.pending

/-- Modelled from the spec: completion of one run of the rescheduler (spec 4.2): if
the pending flag is set, clear it and start another run at once; otherwise go idle. -/
def schedFinish (s : State) : State :=
  if s.pending then { s with pending := false, worker := WorkerPc.L134 }
  else { s with running := false, worker := WorkerPc.off }

/-! ### Statements of `Begin`, of the run loop and of the reload body -/

/-- Entry of `Begin` (line 75): possible only while no other call holds
`beginMutex`. -/
def beginEnter (s : State) : Option State :=
  if s.beginPc = BeginPc.idle then some { s with beginPc := BeginPc.L77 } else none

/-- Next statement of `Begin` (lines 77-120). -/
def beginNext (s : State) : Option State :=
  match s.beginPc with
  | BeginPc.idle => none
  | BeginPc.L77 => some { s with isStarting := true, beginPc := BeginPc.L82 }
  | BeginPc.L82 => some { s with sigChan := some none, beginPc := BeginPc.L83 }
  | BeginPc.L83 => some { s with loopSelect := s.loopSelect + 1, beginPc := BeginPc.L105 }
  | BeginPc.L105 =>
      some { s with calls := s.calls ++ [Call.BuildUp true], beginPc := BeginPc.L105run }
  | BeginPc.L105run => some { s with beginPc := BeginPc.L106 }
  | BeginPc.L106 => some { s with isStarting := false, beginPc := BeginPc.L108 }
  | BeginPc.L108 => some { s with isActive := true, beginPc := BeginPc.L111 }
  | BeginPc.L111 => if s.doneChan then some { s with beginPc := BeginPc.L112 } else none
  | BeginPc.L112 => some { s with isActive := false, beginPc := BeginPc.L113 }
  | BeginPc.L113 => some { s with isStopping := true, beginPc := BeginPc.L116 }
  | BeginPc.L116 =>
      some { s with calls := s.calls ++ [Call.TearDown true], beginPc := BeginPc.L116run }
  | BeginPc.L116run => some { s with beginPc := BeginPc.L119 }
  | BeginPc.L119 => some { s with isStopping := false, beginPc := BeginPc.L120 }
  | BeginPc.L120 => some { s with beginPc := BeginPc.idle }

/-- Line 86: a run-loop goroutine at the `select` receives the buffered signal and
enters the `switch` of line 87. -/
def loopReceive (s : State) : Option State :=
  if 0 < s.loopSelect then
    match s.sigChan with
    | some (some Signal.SIGHUP) =>
        some { s with sigChan := some none, loopSelect := s.loopSelect - 1,
                      loopHup := s.loopHup + 1 }
    | some (some _) =>
        some { s with sigChan := some none, loopSelect := s.loopSelect - 1,
                      loopTerm := s.loopTerm + 1 }
    | _ => none
  else none

/-- Lines 98-100: a run-loop goroutine at the `select` sees `doneChan` closed and
returns. -/
def loopSeeDone (s : State) : Option State :=
  if 0 < s.loopSelect ∧ s.doneChan = true then
    some { s with loopSelect := s.loopSelect - 1 }
  else none

/-- Line 90: `d.schedReload.Run()`, then back to the `select`. -/
def loopSchedule (s : State) : Option State :=
  if 0 < s.loopHup then
    some { schedRun s with loopHup := s.loopHup - 1, loopSelect := s.loopSelect + 1 }
  else none

/-- Line 93: `d.schedReload.Wait()` returns. -/
def loopWaitReturn (s : State) : Option State :=
  if 0 < s.loopTerm ∧ schedWaitReady s = true then
    some { s with loopTerm := s.loopTerm - 1, loopClose := s.loopClose + 1 }
  else none

/-- Lines 95-96: `close(d.doneChan)` and `return`; closing a closed channel
panics. -/
def loopCloseDone (s : State) : Option State :=
  if 0 < s.loopClose then
    if s.doneChan then some { s with loopClose := s.loopClose - 1, panicked := true }
    else some { s with loopClose := s.loopClose - 1, doneChan := true }
  else none

/-- Next statement of the reload goroutine: the body of lines 134-141, then the
completion check of the rescheduler. -/
def workerNext (s : State) : Option State :=
  match s.worker with
  | WorkerPc.off => none
  | WorkerPc.L134 => some { s with isReloading := true, worker := WorkerPc.L136 }
  | WorkerPc.L136 =>
      some { s with calls := s.calls ++ [Call.TearDown false], worker := WorkerPc.L136run }
  | WorkerPc.L136run => some { s with worker := WorkerPc.L139 }
  | WorkerPc.L139 =>
      some { s with calls := s.calls ++ [Call.BuildUp false], worker := WorkerPc.L139run }
  | WorkerPc.L139run => some { s with worker := WorkerPc.L141 }
  | WorkerPc.L141 => some { s with isReloading := false, worker := WorkerPc.finish }
  | WorkerPc.finish => some (schedFinish s)

/-- One step of the whole program; `none` when the action is not enabled. -/
def step (a : Action) (s : State) : Option State :=
  if s.panicked then none
  else
    match a with
    | Action.callBegin => beginEnter s
    | Action.beginStep => beginNext s
    | Action.signal sig =>
        match chanSend s sig with
        | SendResult.sent t => some t
        | _ => none
    | Action.loopRecv => loopReceive s
    | Action.loopDone => loopSeeDone s
    | Action.loopRun => loopSchedule s
    | Action.loopWait => loopWaitReturn s
    | Action.loopClose => loopCloseDone s
    | Action.worker => workerNext s

/-! ### Executions -/

/-- Execute a schedule from `s` under the discipline `ok`: `none` if some action is
not enabled, or not permitted by `ok` in the state where its turn comes. -/
def runG (ok : State → Action → Bool) : List Action → State → Option State
  | [], s => some s
  | a :: as, s =>
      if ok s a then
        match step a s with
        | some t => runG ok as t
        | none => none
      else none

/-- The discipline that permits every action. -/
def anyAction : State → Action → Bool := fun _ _ => true

/-- Execute a schedule from `s`; `none` if some action is not enabled when its turn
comes. -/
def run (acts : List Action) (s : State) : Option State := runG anyAction acts s

/-! ### Control points, flags and invariants of one lifecycle -/

/-- Control points of `Begin` at which `isStarting` is true (after line 77, up to
line 106). -/
def startingAt : BeginPc → Bool
  | BeginPc.L82 | BeginPc.L83 | BeginPc.L105 | BeginPc.L105run | BeginPc.L106 => true
  | _ => false

/-- Control points of `Begin` at which `isActive` is true (after line 108, up to
line 112). -/
def activeAt : BeginPc → Bool
  | BeginPc.L111 | BeginPc.L112 => true
  | _ => false

/-- Control points of `Begin` at which `isStopping` is true (after line 113, up to
line 119). -/
def stoppingAt : BeginPc → Bool
  | BeginPc.L116 | BeginPc.L116run | BeginPc.L119 => true
  | _ => false

/-- Control points of the reload goroutine at which `isReloading` is true (after
line 134, up to line 141). -/
def reloadingAt : WorkerPc → Bool
  | WorkerPc.L136 | WorkerPc.L136run | WorkerPc.L139 | WorkerPc.L139run | WorkerPc.L141 => true
  | _ => false

/-- A reload goroutine exists. -/
def workerOn : WorkerPc → Bool
  | WorkerPc.off => false
  | _ => true

/-- Control points of `Begin` before the channel is made at line 82. -/
def preChan : BeginPc → Bool
  | BeginPc.L77 | BeginPc.L82 => true
  | _ => false

/-- Control points of `Begin` before the run loop is started at line 83. -/
def preSpawn : BeginPc → Bool
  | BeginPc.L77 | BeginPc.L82 | BeginPc.L83 => true
  | _ => false

/-- Control points of `Begin` up to the clearing of `isStarting` at line 106. -/
def startupAt : BeginPc → Bool
  | BeginPc.L77 | BeginPc.L82 | BeginPc.L83 | BeginPc.L105 | BeginPc.L105run
  | BeginPc.L106 => true
  | _ => false

/-- Control points past the receive from `doneChan` at line 111; `idle` is "Begin
has returned" for a runner on which `Begin` was called. -/
def pastDone : BeginPc → Bool
  | BeginPc.L112 | BeginPc.L113 | BeginPc.L116 | BeginPc.L116run | BeginPc.L119
  | BeginPc.L120 | BeginPc.idle => true
  | _ => false

/-- Number of `Daemon` invocations in progress: the one of `Begin` (lines 105, 116)
plus the one of the reload goroutine (lines 136, 139). -/
def inCall (s : State) : Nat :=
  (if s.beginPc = BeginPc.L105run ∨ s.beginPc = BeginPc.L116run then 1 else 0)
    + (if s.worker = WorkerPc.L136run ∨ s.worker = WorkerPc.L139run then 1 else 0)

/-- Run-loop goroutines that exist. -/
def loops (s : State) : Nat := s.loopSelect + s.loopHup + s.loopTerm + s.loopClose

/-- Flags and control points agree: each flag of the runner is written by one
goroutine only, and the rescheduler runs exactly while its goroutine exists. -/
structure Coherent (s : State) : Prop where
  starting : s.isStarting = startingAt s.beginPc
  active : s.isActive = activeAt s.beginPc
  stopping : s.isStopping = stoppingAt s.beginPc
  reloading : s.isReloading = reloadingAt s.worker
  running : s.running = workerOn s.worker
  pending : s.pending = true → s.running = true

/-- The run loop of a runner on which `Begin` has been called once: at most one
run-loop goroutine, none before line 83 and none after `doneChan` is closed. -/
structure OneLoop (s : State) : Prop where
  alive : s.panicked = false
  oneLoop : loops s ≤ 1
  closedLoop : s.doneChan = true → loops s = 0
  earlyLoop : preSpawn s.beginPc = true → loops s = 0 ∧ s.doneChan = false
  spawned : preSpawn s.beginPc = false → s.doneChan = false → loops s = 1

/-- The rescheduler is idle before the run loop exists, between the return of `Wait`
and the `close` of line 95, and after the `close`. -/
structure Quiesced (s : State) : Prop where
  closing : 0 < s.loopClose → s.running = false ∧ s.pending = false
  closed : s.doneChan = true → s.running = false ∧ s.pending = false
  early : preSpawn s.beginPc = true → s.running = false ∧ s.pending = false

/-- Invariant of a runner on which `Begin` has been called once. -/
structure Life (s : State) : Prop where
  coherent : Coherent s
  chan : s.sigChan.isNone = preChan s.beginPc
  past : pastDone s.beginPc = true → s.doneChan = true
  loop : OneLoop s
  quiet : Quiesced s

/-! ### Disciplines, schedules and measures used by the claims -/

/-- Discipline "no reload is signalled during startup": a send of `SIGHUP` completes
only while `Starting()` returns false. -/
def reloadAfterStartup (s : State) : Action → Bool
  | Action.signal Signal.SIGHUP => !Starting s
  | _ => true

/-- Up to the clearing of `isStarting` no reload request is anywhere in the runner. -/
structure NoEarlyReload (s : State) : Prop where
  worker : startupAt s.beginPc = true → s.worker = WorkerPc.off
  loopHup : startupAt s.beginPc = true → s.loopHup = 0
  buffer : startupAt s.beginPc = true → s.sigChan ≠ some (some Signal.SIGHUP)
  pending : startupAt s.beginPc = true → s.pending = false

/-- Schedule: `Begin` is called and runs up to the receive of line 111; no signal is
sent. -/
def startupSchedule : List Action :=
  [Action.callBegin, Action.beginStep, Action.beginStep, Action.beginStep, Action.beginStep,
   Action.beginStep, Action.beginStep, Action.beginStep]

/-- Schedule: after startup a reload is signalled and is inside `TearDown(false)` when
a shutdown is signalled; the run loop waits for the reload, closes `doneChan`, and
`Begin` calls `TearDown(true)`. -/
def shutdownDuringReload : List Action :=
  startupSchedule ++
  [Action.signal Signal.SIGHUP, Action.loopRecv, Action.loopRun, Action.worker, Action.worker,
   Action.signal Signal.SIGTERM, Action.loopRecv,
   Action.worker, Action.worker, Action.worker, Action.worker, Action.worker,
   Action.loopWait, Action.loopClose,
   Action.beginStep, Action.beginStep, Action.beginStep, Action.beginStep]

/-- State reached by `shutdownDuringReload`: `TearDown(true)` is executing, after one
reload cycle. -/
def finalTeardownAfterReload : State :=
  { newRunner with
    sigChan := some none, doneChan := true, isStopping := true,
    beginPc := BeginPc.L116run,
    calls := [Call.BuildUp true, Call.TearDown false, Call.BuildUp false,
              Call.TearDown true] }

/-- State right after line 112 in a lifecycle without reload: final teardown has
begun. -/
def teardownBegun : State :=
  { newRunner with
    sigChan := some none, doneChan := true, beginPc := BeginPc.L113,
    calls := [Call.BuildUp true] }

/-- State after `Begin` has returned and a later reload event has been put into the
queue. -/
def returnedReloadQueued : State :=
  { newRunner with
    sigChan := some (some Signal.SIGHUP), doneChan := true,
    calls := [Call.BuildUp true, Call.TearDown true] }

/-- Schedule: after startup a reload is signalled and is inside `TearDown(false)`. -/
def reloadAfterStart : List Action :=
  startupSchedule ++
  [Action.signal Signal.SIGHUP, Action.loopRecv, Action.loopRun, Action.worker, Action.worker]

/-- Schedule: one complete lifecycle without reload: startup, one `SIGTERM`, the run
loop closes `doneChan`, final teardown, `Begin` returns. -/
def fullLifecycle : List Action :=
  startupSchedule ++
  [Action.signal Signal.SIGTERM, Action.loopRecv, Action.loopWait, Action.loopClose,
   Action.beginStep, Action.beginStep, Action.beginStep, Action.beginStep, Action.beginStep,
   Action.beginStep, Action.beginStep]

/-- Schedule: a second call of `Begin` that runs to its return (line 111 passes at
once, `doneChan` being closed), while the run loop it started at line 83 has not yet
taken a step. -/
def secondBegin : List Action :=
  Action.callBegin :: List.replicate 14 Action.beginStep

/-- Where the runner stands with respect to `isActive`: 0 before line 108 has been
executed, 1 from line 108 to line 112, 2 once line 112 has been executed (final
teardown has begun), including after the return of `Begin`. -/
def activePhase (s : State) : Nat :=
  match s.beginPc with
  | BeginPc.idle => if s.doneChan then 2 else 0
  | BeginPc.L111 | BeginPc.L112 => 1
  | BeginPc.L113 | BeginPc.L116 | BeginPc.L116run | BeginPc.L119 | BeginPc.L120 => 2
  | _ => 0

/-- A completed send of a shutdown event: any signal other than `SIGHUP` (the
`default` case of the switch of line 87). -/
def isShutdownSend : Action → Bool
  | Action.signal Signal.SIGHUP => false
  | Action.signal _ => true
  | _ => false

/-- Number of shutdown events sent in a schedule. -/
def shutdownSends (acts : List Action) : Nat := acts.countP isShutdownSend

/-- The one-slot buffer of `sigChan` holds a signal. -/
def bufferFull (s : State) : Bool :=
  match s.sigChan with
  | some (some _) => true
  | _ => false

/-- Calls the `Daemon` has received when `Begin` is at a given control point, in a
lifecycle without reload. -/
def expectedCalls (s : State) : List Call :=
  match s.beginPc with
  | BeginPc.idle => if s.doneChan then [Call.BuildUp true, Call.TearDown true] else []
  | BeginPc.L77 | BeginPc.L82 | BeginPc.L83 | BeginPc.L105 => []
  | BeginPc.L116run | BeginPc.L119 | BeginPc.L120 => [Call.BuildUp true, Call.TearDown true]
  | _ => [Call.BuildUp true]

/-- Steps of the caller of `Begin` that remain until `Begin` has returned (the call
itself included). -/
def beginLeft (s : State) : Nat :=
  match s.beginPc with
  | BeginPc.idle => if s.doneChan then 0 else 15
  | BeginPc.L77 => 14
  | BeginPc.L82 => 13
  | BeginPc.L83 => 12
  | BeginPc.L105 => 11
  | BeginPc.L105run => 10
  | BeginPc.L106 => 9
  | BeginPc.L108 => 8
  | BeginPc.L111 => 7
  | BeginPc.L112 => 6
  | BeginPc.L113 => 5
  | BeginPc.L116 => 4
  | BeginPc.L116run => 3
  | BeginPc.L119 => 2
  | BeginPc.L120 => 1

/-- Steps that remain for the one shutdown event: its send, the receive of line 86,
the return of `Wait`, and the `close` of line 95. -/
def shutdownLeft (s : State) : Nat :=
  if s.doneChan then 0
  else if 0 < s.loopClose then 1
  else if 0 < s.loopTerm then 2
  else if bufferFull s then 3
  else 4

/-- Steps that remain in a lifecycle with one shutdown event and no reload. -/
def stepsLeft (s : State) : Nat := beginLeft s + shutdownLeft s

/-- Invariant of a lifecycle without reload event, `n` shutdown events having been
sent. -/
structure Plain (n : Nat) (s : State) : Prop where
  worker : s.worker = WorkerPc.off
  loopHup : s.loopHup = 0
  buffer : s.sigChan ≠ some (some Signal.SIGHUP)
  calls : s.calls = expectedCalls s
  sent : n = if shutdownLeft s = 4 then 0 else 1

/-- Reload cycles the `Daemon` has seen: calls of `TearDown(false)`. -/
def reloadCycles (s : State) : Nat := s.calls.count (Call.TearDown false)

/-- Executions of the reload body started so far: those that have called
`TearDown(false)`, plus the one that is before that call (lines 134-136). -/
def bodyStarted (s : State) : Nat :=
  reloadCycles s + (if s.worker = WorkerPc.L134 ∨ s.worker = WorkerPc.L136 then 1 else 0)

/-- Executions of the reload body started so far or owed by the rescheduler. -/
def reloadsDue (s : State) : Nat := bodyStarted s + (if s.pending = true then 1 else 0)

/-- Number of further `Run` calls that still add an execution: 2 when the rescheduler
is idle (one starts a run, one is recorded as owed), 1 when it is running with none
owed, 0 when one is owed already. -/
def runCapacity (s : State) : Nat :=
  if s.running = true then (if s.pending = true then 0 else 1) else 2

/-- Discipline "the executing reload does not complete": the reload goroutine may
execute the statements of the body but not the completion check of the rescheduler. -/
def noCompletion (s : State) : Action → Bool
  | Action.worker => !(s.worker == WorkerPc.finish)
  | _ => true

/-- Steps the reload goroutine still takes when no further `Run` arrives. -/
def workerLeft (s : State) : Nat :=
  (match s.worker with
    | WorkerPc.off => 0
    | WorkerPc.L134 => 7
    | WorkerPc.L136 => 6
    | WorkerPc.L136run => 5
    | WorkerPc.L139 => 4
    | WorkerPc.L139run => 3
    | WorkerPc.L141 => 2
    | WorkerPc.finish => 1) + (if s.pending = true then 7 else 0)

/-- Schedule: after startup three `SignalReload` calls return before the first reload
has executed a statement (two events have been handed to the rescheduler, the third is
in the queue); the first reload then completes and the owed one starts; only then does
the run loop hand over the third event, which is owed in turn; the reload goroutine
runs until the rescheduler is idle. -/
def threeSignalsThreeCycles : List Action :=
  startupSchedule ++
  [Action.signal Signal.SIGHUP, Action.loopRecv, Action.loopRun,
   Action.signal Signal.SIGHUP, Action.loopRecv, Action.loopRun,
   Action.signal Signal.SIGHUP] ++
  List.replicate 7 Action.worker ++
  [Action.loopRecv, Action.loopRun] ++
  List.replicate 14 Action.worker

/-- Schedule: after startup three reload events are handed to the rescheduler before
the first reload completes. -/
def threeRunsDuringFirst : List Action :=
  [Action.signal Signal.SIGHUP, Action.loopRecv, Action.loopRun,
   Action.signal Signal.SIGHUP, Action.loopRecv, Action.loopRun, Action.worker,
   Action.signal Signal.SIGHUP, Action.loopRecv, Action.loopRun]

/-- Control points of the reload goroutine inside the reload body (lines 134-141). -/
def reloadInBody : WorkerPc → Bool
  | WorkerPc.off | WorkerPc.finish => false
  | _ => true

/-- The queue holds a reload event. -/
def hupQueued (s : State) : Nat := if s.sigChan = some (some Signal.SIGHUP) then 1 else 0

/-- Reload requests that have been signalled and whose reload cycle has not completed:
in the queue, received by the run loop, owed by the rescheduler, or executing. -/
def outstanding (s : State) : Nat :=
  hupQueued s + s.loopHup + (if s.pending = true then 1 else 0)
    + (if reloadInBody s.worker = true then 1 else 0)

/-- Discipline of C9: a reload is signalled only on a started runner (`Begin` waits at
line 111) and only after the previous reload cycle has completed; no shutdown is
signalled. -/
def serialReload (s : State) : Action → Bool
  | Action.signal Signal.SIGHUP =>
      decide (s.beginPc = BeginPc.L111) && decide (outstanding s = 0)
  | Action.signal _ => false
  | _ => true

/-- Number of reload events sent in a schedule. -/
def hupSends (acts : List Action) : Nat := acts.count (Action.signal Signal.SIGHUP)

/-- The calls of `n` reload cycles: `n` times `TearDown(false)` then `BuildUp(false)`. -/
def reloadTrace : Nat → List Call
  | 0 => []
  | n + 1 => reloadTrace n ++ [Call.TearDown false, Call.BuildUp false]

/-- The calls the executing reload body has made so far. -/
def bodyCalls : WorkerPc → List Call
  | WorkerPc.L136run | WorkerPc.L139 => [Call.TearDown false]
  | WorkerPc.L139run | WorkerPc.L141 => [Call.TearDown false, Call.BuildUp false]
  | _ => []

/-- The calls `Begin` has made up to line 111. -/
def startCalls : BeginPc → List Call
  | BeginPc.idle | BeginPc.L77 | BeginPc.L82 | BeginPc.L83 | BeginPc.L105 => []
  | _ => [Call.BuildUp true]

/-- Steps of the caller of `Begin` that remain until it waits at line 111 (the call
itself included). -/
def startLeft : BeginPc → Nat
  | BeginPc.idle => 8
  | BeginPc.L77 => 7
  | BeginPc.L82 => 6
  | BeginPc.L83 => 5
  | BeginPc.L105 => 4
  | BeginPc.L105run => 3
  | BeginPc.L106 => 2
  | BeginPc.L108 => 1
  | _ => 0

/-- Steps that remain until the runner is started and every signalled reload has
completed: receive (line 86), `Run` (line 90), the seven steps of the reload
goroutine. -/
def serialLeft (s : State) : Nat :=
  startLeft s.beginPc + 9 * hupQueued s + 8 * s.loopHup + workerLeft s

/-- No shutdown event is anywhere in the runner. -/
structure NoShutdown (s : State) : Prop where
  loopTerm : s.loopTerm = 0
  loopClose : s.loopClose = 0
  doneChan : s.doneChan = false
  buffer : ∀ g, s.sigChan = some (some g) → g = Signal.SIGHUP

/-- Invariant of C9, `c` reload cycles having completed. -/
structure Serial (c : Nat) (s : State) : Prop where
  one : outstanding s ≤ 1
  early : s.beginPc ≠ BeginPc.L111 → c = 0 ∧ outstanding s = 0 ∧ s.worker = WorkerPc.off
  calls : s.calls = startCalls s.beginPc ++ reloadTrace c ++ bodyCalls s.worker

/-- Schedule: one reload signalled and carried out by a started runner: send,
receive (line 86), `Run` (line 90), and the seven steps of the reload goroutine. -/
def oneReload : List Action :=
  [Action.signal Signal.SIGHUP, Action.loopRecv, Action.loopRun] ++
    List.replicate 7 Action.worker

/-! ## Lemmas and theorems -/

/-! ### Executions -/

theorem runG_append (ok : State → Action → Bool) (as bs : List Action) (s : State) :
    runG ok (as ++ bs) s = (runG ok as s).bind (runG ok bs) := by
  induction as generalizing s with
  | nil => simp [runG]
  | cons a as ih =>
    simp only [List.cons_append, runG]
    split
    · cases hst : step a s with
      | none => simp
      | some u => simpa using ih u
    · simp

theorem runG_snoc {ok : State → Action → Bool} {as : List Action} {a : Action} {s t : State} :
    runG ok (as ++ [a]) s = some t ↔
      ∃ u, runG ok as s = some u ∧ ok u a = true ∧ step a u = some t := by
  rw [runG_append]
  cases h : runG ok as s with
  | none => simp
  | some u =>
    simp only [Option.some_bind, runG, Option.some.injEq, exists_eq_left']
    by_cases hk : ok u a = true
    · cases hst : step a u <;> simp [hk]
    · simp [hk]

/-- Induction over the executions permitted by a discipline, with the schedule so
far available to the invariant. -/
theorem runG_induction {ok : State → Action → Bool} {P : List Action → State → Prop}
    {s0 : State} (h0 : P [] s0)
    (hs : ∀ as s a t, runG ok as s0 = some s → P as s → ok s a = true → step a s = some t →
      P (as ++ [a]) t) :
    ∀ as t, runG ok as s0 = some t → P as t := by
  intro as
  induction as using List.reverseRecOn with
  | nil => intro t h; simp [runG] at h; subst h; exact h0
  | append_singleton as a ih =>
    intro t h
    obtain ⟨u, hu, hk, hst⟩ := runG_snoc.mp h
    exact hs as u a t hu (ih u hu) hk hst

theorem run_induction {P : List Action → State → Prop} {s0 : State} (h0 : P [] s0)
    (hs : ∀ as s a t, run as s0 = some s → P as s → step a s = some t → P (as ++ [a]) t) :
    ∀ as t, run as s0 = some t → P as t :=
  runG_induction h0 (fun as s a t h hp _ hst => hs as s a t h hp hst)

theorem run_of_runG {ok : State → Action → Bool} {as : List Action} {s t : State}
    (h : runG ok as s = some t) : run as s = some t := by
  induction as generalizing s with
  | nil => simpa [run, runG] using h
  | cons a as ih =>
    simp only [runG] at h
    split at h
    · cases hst : step a s with
      | none => simp [hst] at h
      | some u =>
        simp only [hst] at h
        have := ih h
        simp only [run, runG, anyAction, hst, if_true] at this ⊢
        exact this
    · simp at h

theorem run_append (as bs : List Action) (s : State) :
    run (as ++ bs) s = (run as s).bind (run bs) := runG_append anyAction as bs s

/-! ### Case analysis of a step -/

/-- Case analysis of one step: every enabled action is one of the listed statement
executions, with its guard. -/
theorem step_elim {motive : Action → State → Prop} {s : State}
    (call : s.beginPc = BeginPc.idle → motive Action.callBegin { s with beginPc := BeginPc.L77 })
    (b77 : s.beginPc = BeginPc.L77 →
      motive Action.beginStep { s with isStarting := true, beginPc := BeginPc.L82 })
    (b82 : s.beginPc = BeginPc.L82 →
      motive Action.beginStep { s with sigChan := some none, beginPc := BeginPc.L83 })
    (b83 : s.beginPc = BeginPc.L83 →
      motive Action.beginStep { s with loopSelect := s.loopSelect + 1, beginPc := BeginPc.L105 })
    (b105 : s.beginPc = BeginPc.L105 →
      motive Action.beginStep
        { s with calls := s.calls ++ [Call.BuildUp true], beginPc := BeginPc.L105run })
    (b105r : s.beginPc = BeginPc.L105run →
      motive Action.beginStep { s with beginPc := BeginPc.L106 })
    (b106 : s.beginPc = BeginPc.L106 →
      motive Action.beginStep { s with isStarting := false, beginPc := BeginPc.L108 })
    (b108 : s.beginPc = BeginPc.L108 →
      motive Action.beginStep { s with isActive := true, beginPc := BeginPc.L111 })
    (b111 : s.beginPc = BeginPc.L111 → s.doneChan = true →
      motive Action.beginStep { s with beginPc := BeginPc.L112 })
    (b112 : s.beginPc = BeginPc.L112 →
      motive Action.beginStep { s with isActive := false, beginPc := BeginPc.L113 })
    (b113 : s.beginPc = BeginPc.L113 →
      motive Action.beginStep { s with isStopping := true, beginPc := BeginPc.L116 })
    (b116 : s.beginPc = BeginPc.L116 →
      motive Action.beginStep
        { s with calls := s.calls ++ [Call.TearDown true], beginPc := BeginPc.L116run })
    (b116r : s.beginPc = BeginPc.L116run →
      motive Action.beginStep { s with beginPc := BeginPc.L119 })
    (b119 : s.beginPc = BeginPc.L119 →
      motive Action.beginStep { s with isStopping := false, beginPc := BeginPc.L120 })
    (b120 : s.beginPc = BeginPc.L120 →
      motive Action.beginStep { s with beginPc := BeginPc.idle })
    (sig : ∀ g, s.sigChan = some none →
      motive (Action.signal g) { s with sigChan := some (some g) })
    (recvHup : 0 < s.loopSelect → s.sigChan = some (some Signal.SIGHUP) →
      motive Action.loopRecv
        { s with sigChan := some none, loopSelect := s.loopSelect - 1, loopHup := s.loopHup + 1 })
    (recvTerm : ∀ g, 0 < s.loopSelect → g ≠ Signal.SIGHUP → s.sigChan = some (some g) →
      motive Action.loopRecv
        { s with sigChan := some none, loopSelect := s.loopSelect - 1,
                 loopTerm := s.loopTerm + 1 })
    (done : 0 < s.loopSelect → s.doneChan = true →
      motive Action.loopDone { s with loopSelect := s.loopSelect - 1 })
    (runStart : 0 < s.loopHup → s.running = false →
      motive Action.loopRun
        { s with running := true, worker := WorkerPc.L134, loopHup := s.loopHup - 1,
                 loopSelect := s.loopSelect + 1 })
    (runOwed : 0 < s.loopHup → s.running = true →
      motive Action.loopRun
        { s with pending := true, loopHup := s.loopHup - 1, loopSelect := s.loopSelect + 1 })
    (wait : 0 < s.loopTerm → s.running = false → s.pending = false →
      motive Action.loopWait { s with loopTerm := s.loopTerm - 1, loopClose := s.loopClose + 1 })
    (close : 0 < s.loopClose → s.doneChan = false →
      motive Action.loopClose { s with loopClose := s.loopClose - 1, doneChan := true })
    (closePanic : 0 < s.loopClose → s.doneChan = true →
      motive Action.loopClose { s with loopClose := s.loopClose - 1, panicked := true })
    (w134 : s.worker = WorkerPc.L134 →
      motive Action.worker { s with isReloading := true, worker := WorkerPc.L136 })
    (w136 : s.worker = WorkerPc.L136 →
      motive Action.worker
        { s with calls := s.calls ++ [Call.TearDown false], worker := WorkerPc.L136run })
    (w136r : s.worker = WorkerPc.L136run →
      motive Action.worker { s with worker := WorkerPc.L139 })
    (w139 : s.worker = WorkerPc.L139 →
      motive Action.worker
        { s with calls := s.calls ++ [Call.BuildUp false], worker := WorkerPc.L139run })
    (w139r : s.worker = WorkerPc.L139run →
      motive Action.worker { s with worker := WorkerPc.L141 })
    (w141 : s.worker = WorkerPc.L141 →
      motive Action.worker { s with isReloading := false, worker := WorkerPc.finish })
    (finAgain : s.worker = WorkerPc.finish → s.pending = true →
      motive Action.worker { s with pending := false, worker := WorkerPc.L134 })
    (finIdle : s.worker = WorkerPc.finish → s.pending = false →
      motive Action.worker { s with running := false, worker := WorkerPc.off })
    {a : Action} {t : State} (h : step a s = some t) : motive a t := by
  unfold step at h
  split at h
  · simp at h
  · cases a with
    | callBegin =>
      simp only [beginEnter] at h
      split at h
      · cases h; exact call ‹_›
      · simp at h
    | beginStep =>
      simp only [beginNext] at h
      split at h
      · simp at h
      · cases h; exact b77 ‹_›
      · cases h; exact b82 ‹_›
      · cases h; exact b83 ‹_›
      · cases h; exact b105 ‹_›
      · cases h; exact b105r ‹_›
      · cases h; exact b106 ‹_›
      · cases h; exact b108 ‹_›
      · split at h
        · cases h; exact b111 ‹_› ‹_›
        · simp at h
      · cases h; exact b112 ‹_›
      · cases h; exact b113 ‹_›
      · cases h; exact b116 ‹_›
      · cases h; exact b116r ‹_›
      · cases h; exact b119 ‹_›
      · cases h; exact b120 ‹_›
    | signal g =>
      simp only [chanSend] at h
      split at h
      · rename_i t0 hs
        split at hs
        · simp at hs
        · cases hs; cases h; exact sig g ‹_›
        · simp at hs
      · simp at h
    | loopRecv =>
      simp only [loopReceive] at h
      split at h
      · split at h
        · cases h; exact recvHup ‹_› ‹_›
        · rename_i g hg hc
          cases h
          exact recvTerm g ‹_› hg hc
        · simp at h
      · simp at h
    | loopDone =>
      simp only [loopSeeDone] at h
      split at h
      · rename_i hc; cases h; exact done hc.1 hc.2
      · simp at h
    | loopRun =>
      simp only [loopSchedule] at h
      split at h
      · cases h
        unfold schedRun
        split
        · exact runOwed ‹_› ‹_›
        · exact runStart ‹_› (by simpa using ‹¬ s.running = true›)
      · simp at h
    | loopWait =>
      simp only [loopWaitReturn, schedWaitReady] at h
      split at h
      · rename_i hc; cases h
        have h2 := hc.2
        simp at h2
        exact wait hc.1 h2.1 h2.2
      · simp at h
    | loopClose =>
      simp only [loopCloseDone] at h
      split at h
      · split at h
        · cases h; exact closePanic ‹_› ‹_›
        · cases h; exact close ‹_› (by simpa using ‹¬ s.doneChan = true›)
      · simp at h
    | worker =>
      simp only [workerNext] at h
      split at h
      · simp at h
      · cases h; exact w134 ‹_›
      · cases h; exact w136 ‹_›
      · cases h; exact w136r ‹_›
      · cases h; exact w139 ‹_›
      · cases h; exact w139r ‹_›
      · cases h; exact w141 ‹_›
      · cases h
        unfold schedFinish
        split
        · exact finAgain ‹_› ‹_›
        · exact finIdle ‹_› (by simpa using ‹¬ s.pending = true›)

/-! ### Invariants of one lifecycle -/

@[simp]
theorem startingAt_at :
    startingAt BeginPc.idle = false ∧ startingAt BeginPc.L77 = false
      ∧ startingAt BeginPc.L82 = true ∧ startingAt BeginPc.L83 = true
      ∧ startingAt BeginPc.L105 = true ∧ startingAt BeginPc.L105run = true
      ∧ startingAt BeginPc.L106 = true ∧ startingAt BeginPc.L108 = false
      ∧ startingAt BeginPc.L111 = false ∧ startingAt BeginPc.L112 = false
      ∧ startingAt BeginPc.L113 = false ∧ startingAt BeginPc.L116 = false
      ∧ startingAt BeginPc.L116run = false ∧ startingAt BeginPc.L119 = false
      ∧ startingAt BeginPc.L120 = false := by
  simp [startingAt]

@[simp]
theorem activeAt_at :
    activeAt BeginPc.idle = false ∧ activeAt BeginPc.L77 = false ∧ activeAt BeginPc.L82 = false
      ∧ activeAt BeginPc.L83 = false ∧ activeAt BeginPc.L105 = false
      ∧ activeAt BeginPc.L105run = false ∧ activeAt BeginPc.L106 = false
      ∧ activeAt BeginPc.L108 = false ∧ activeAt BeginPc.L111 = true
      ∧ activeAt BeginPc.L112 = true ∧ activeAt BeginPc.L113 = false
      ∧ activeAt BeginPc.L116 = false ∧ activeAt BeginPc.L116run = false
      ∧ activeAt BeginPc.L119 = false ∧ activeAt BeginPc.L120 = false := by
  simp [activeAt]

@[simp]
theorem stoppingAt_at :
    stoppingAt BeginPc.idle = false ∧ stoppingAt BeginPc.L77 = false
      ∧ stoppingAt BeginPc.L82 = false ∧ stoppingAt BeginPc.L83 = false
      ∧ stoppingAt BeginPc.L105 = false ∧ stoppingAt BeginPc.L105run = false
      ∧ stoppingAt BeginPc.L106 = false ∧ stoppingAt BeginPc.L108 = false
      ∧ stoppingAt BeginPc.L111 = false ∧ stoppingAt BeginPc.L112 = false
      ∧ stoppingAt BeginPc.L113 = false ∧ stoppingAt BeginPc.L116 = true
      ∧ stoppingAt BeginPc.L116run = true ∧ stoppingAt BeginPc.L119 = true
      ∧ stoppingAt BeginPc.L120 = false := by
  simp [stoppingAt]

@[simp]
theorem preChan_at :
    preChan BeginPc.idle = false ∧ preChan BeginPc.L77 = true ∧ preChan BeginPc.L82 = true
      ∧ preChan BeginPc.L83 = false ∧ preChan BeginPc.L105 = false
      ∧ preChan BeginPc.L105run = false ∧ preChan BeginPc.L106 = false
      ∧ preChan BeginPc.L108 = false ∧ preChan BeginPc.L111 = false
      ∧ preChan BeginPc.L112 = false ∧ preChan BeginPc.L113 = false
      ∧ preChan BeginPc.L116 = false ∧ preChan BeginPc.L116run = false
      ∧ preChan BeginPc.L119 = false ∧ preChan BeginPc.L120 = false := by
  simp [preChan]

@[simp]
theorem preSpawn_at :
    preSpawn BeginPc.idle = false ∧ preSpawn BeginPc.L77 = true ∧ preSpawn BeginPc.L82 = true
      ∧ preSpawn BeginPc.L83 = true ∧ preSpawn BeginPc.L105 = false
      ∧ preSpawn BeginPc.L105run = false ∧ preSpawn BeginPc.L106 = false
      ∧ preSpawn BeginPc.L108 = false ∧ preSpawn BeginPc.L111 = false
      ∧ preSpawn BeginPc.L112 = false ∧ preSpawn BeginPc.L113 = false
      ∧ preSpawn BeginPc.L116 = false ∧ preSpawn BeginPc.L116run = false
      ∧ preSpawn BeginPc.L119 = false ∧ preSpawn BeginPc.L120 = false := by
  simp [preSpawn]

@[simp]
theorem startupAt_at :
    startupAt BeginPc.idle = false ∧ startupAt BeginPc.L77 = true ∧ startupAt BeginPc.L82 = true
      ∧ startupAt BeginPc.L83 = true ∧ startupAt BeginPc.L105 = true
      ∧ startupAt BeginPc.L105run = true ∧ startupAt BeginPc.L106 = true
      ∧ startupAt BeginPc.L108 = false ∧ startupAt BeginPc.L111 = false
      ∧ startupAt BeginPc.L112 = false ∧ startupAt BeginPc.L113 = false
      ∧ startupAt BeginPc.L116 = false ∧ startupAt BeginPc.L116run = false
      ∧ startupAt BeginPc.L119 = false ∧ startupAt BeginPc.L120 = false := by
  simp [startupAt]

@[simp]
theorem pastDone_at :
    pastDone BeginPc.idle = true ∧ pastDone BeginPc.L77 = false ∧ pastDone BeginPc.L82 = false
      ∧ pastDone BeginPc.L83 = false ∧ pastDone BeginPc.L105 = false
      ∧ pastDone BeginPc.L105run = false ∧ pastDone BeginPc.L106 = false
      ∧ pastDone BeginPc.L108 = false ∧ pastDone BeginPc.L111 = false
      ∧ pastDone BeginPc.L112 = true ∧ pastDone BeginPc.L113 = true
      ∧ pastDone BeginPc.L116 = true ∧ pastDone BeginPc.L116run = true
      ∧ pastDone BeginPc.L119 = true ∧ pastDone BeginPc.L120 = true := by
  simp [pastDone]

@[simp]
theorem reloadingAt_at :
    reloadingAt WorkerPc.off = false ∧ reloadingAt WorkerPc.L134 = false
      ∧ reloadingAt WorkerPc.L136 = true ∧ reloadingAt WorkerPc.L136run = true
      ∧ reloadingAt WorkerPc.L139 = true ∧ reloadingAt WorkerPc.L139run = true
      ∧ reloadingAt WorkerPc.L141 = true ∧ reloadingAt WorkerPc.finish = false := by
  simp [reloadingAt]

@[simp]
theorem workerOn_at :
    workerOn WorkerPc.off = false ∧ workerOn WorkerPc.L134 = true
      ∧ workerOn WorkerPc.L136 = true ∧ workerOn WorkerPc.L136run = true
      ∧ workerOn WorkerPc.L139 = true ∧ workerOn WorkerPc.L139run = true
      ∧ workerOn WorkerPc.L141 = true ∧ workerOn WorkerPc.finish = true := by
  simp [workerOn]

theorem workerOn_eq_false {w : WorkerPc} : workerOn w = false ↔ w = WorkerPc.off := by
  cases w <;> simp

theorem coherent_newRunner : Coherent newRunner := by
  constructor <;> simp [newRunner]

theorem coherent_step {a : Action} {s t : State} (h : step a s = some t) (hi : Coherent s) :
    Coherent t := by
  obtain ⟨h1, h2, h3, h4, h5, h6⟩ := hi
  refine step_elim (motive := fun _ t => Coherent t) ?_ ?_ ?_ ?_ ?_ ?_ ?_ ?_ ?_ ?_ ?_ ?_ ?_ ?_ ?_ ?_
    ?_ ?_ ?_ ?_ ?_ ?_ ?_ ?_ ?_ ?_ ?_ ?_ ?_ ?_ ?_ ?_ h
  all_goals (intros; clear h)
  all_goals constructor
  all_goals dsimp only
  all_goals first
    | assumption
    | simp_all [workerOn_eq_false]




theorem chan_step {a : Action} {s t : State} (h : step a s = some t) (ha : a ≠ Action.callBegin)
    (hi : s.sigChan.isNone = preChan s.beginPc) : t.sigChan.isNone = preChan t.beginPc := by
  refine step_elim (motive := fun b t => b ≠ Action.callBegin →
      t.sigChan.isNone = preChan t.beginPc)
    ?_ ?_ ?_ ?_ ?_ ?_ ?_ ?_ ?_ ?_ ?_ ?_ ?_ ?_ ?_ ?_
    ?_ ?_ ?_ ?_ ?_ ?_ ?_ ?_ ?_ ?_ ?_ ?_ ?_ ?_ ?_ ?_ h ha
  all_goals (intros; beta_reduce; intro hne; dsimp only)
  all_goals first
    | assumption
    | contradiction
    | simp_all

theorem past_step {a : Action} {s t : State} (h : step a s = some t) (ha : a ≠ Action.callBegin)
    (hi : pastDone s.beginPc = true → s.doneChan = true) :
    pastDone t.beginPc = true → t.doneChan = true := by
  refine step_elim (motive := fun b t => b ≠ Action.callBegin →
      pastDone t.beginPc = true → t.doneChan = true)
    ?_ ?_ ?_ ?_ ?_ ?_ ?_ ?_ ?_ ?_ ?_ ?_ ?_ ?_ ?_ ?_
    ?_ ?_ ?_ ?_ ?_ ?_ ?_ ?_ ?_ ?_ ?_ ?_ ?_ ?_ ?_ ?_ h ha
  all_goals (intros; beta_reduce; intro hne; dsimp only)
  all_goals first
    | assumption
    | contradiction
    | simp_all

theorem oneLoop_step {a : Action} {s t : State} (h : step a s = some t)
    (ha : a ≠ Action.callBegin) (hi : OneLoop s) : OneLoop t := by
  obtain ⟨h1, h2, h3, h4, h5⟩ := hi
  refine step_elim (motive := fun b t => b ≠ Action.callBegin → OneLoop t)
    ?_ ?_ ?_ ?_ ?_ ?_ ?_ ?_ ?_ ?_ ?_ ?_ ?_ ?_ ?_ ?_
    ?_ ?_ ?_ ?_ ?_ ?_ ?_ ?_ ?_ ?_ ?_ ?_ ?_ ?_ ?_ ?_ h ha
  all_goals (intros; beta_reduce; intro hne; clear h ha)
  all_goals first
    | contradiction
    | (refine ⟨?_, ?_, ?_, ?_, ?_⟩ <;> dsimp only [loops] at * <;>
        first
          | assumption
          | (simp_all; done)
          | (cases hd : s.doneChan <;> cases hp : preSpawn s.beginPc <;> simp_all <;> omega))

theorem quiesced_step {a : Action} {s t : State} (h : step a s = some t)
    (ha : a ≠ Action.callBegin) (hc : Coherent s) (hl : OneLoop s) (hi : Quiesced s) :
    Quiesced t := by
  obtain ⟨-, -, -, -, c5, c6⟩ := hc
  obtain ⟨-, l2, l3, l4, -⟩ := hl
  obtain ⟨h1, h2, h3⟩ := hi
  refine step_elim (motive := fun b t => b ≠ Action.callBegin → Quiesced t)
    ?_ ?_ ?_ ?_ ?_ ?_ ?_ ?_ ?_ ?_ ?_ ?_ ?_ ?_ ?_ ?_
    ?_ ?_ ?_ ?_ ?_ ?_ ?_ ?_ ?_ ?_ ?_ ?_ ?_ ?_ ?_ ?_ h ha
  all_goals (intros; beta_reduce; intro hne; clear h ha)
  all_goals first
    | contradiction
    | (refine ⟨?_, ?_, ?_⟩ <;> dsimp only [loops] at * <;>
        first
          | assumption
          | (simp_all [workerOn_eq_false]; done)
          | (cases hd : s.doneChan <;> cases hp : preSpawn s.beginPc <;>
              simp_all [workerOn_eq_false] <;> omega))

theorem life_step {a : Action} {s t : State} (h : step a s = some t)
    (ha : a ≠ Action.callBegin) (hi : Life s) : Life t :=
  ⟨coherent_step h hi.coherent, chan_step h ha hi.chan, past_step h ha hi.past,
    oneLoop_step h ha hi.loop, quiesced_step h ha hi.coherent hi.loop hi.quiet⟩

/-- The state right after `Begin` has been entered on a new runner. -/
theorem life_entered : Life { newRunner with beginPc := BeginPc.L77 } := by
  refine ⟨⟨?_, ?_, ?_, ?_, ?_, ?_⟩, ?_, ?_, ⟨?_, ?_, ?_, ?_, ?_⟩, ⟨?_, ?_, ?_⟩⟩ <;>
    simp [newRunner, loops]

theorem step_newRunner {a : Action} {t : State} (h : step a newRunner = some t) :
    a = Action.callBegin ∧ t = { newRunner with beginPc := BeginPc.L77 } := by
  refine step_elim (motive := fun b t => b = Action.callBegin ∧
      t = { newRunner with beginPc := BeginPc.L77 })
    ?_ ?_ ?_ ?_ ?_ ?_ ?_ ?_ ?_ ?_ ?_ ?_ ?_ ?_ ?_ ?_
    ?_ ?_ ?_ ?_ ?_ ?_ ?_ ?_ ?_ ?_ ?_ ?_ ?_ ?_ ?_ ?_ h
  all_goals (intros; beta_reduce)
  all_goals first
    | exact ⟨rfl, rfl⟩
    | (exfalso; simp_all [newRunner])

/-- Number of times `Begin` is called in a schedule. -/
theorem count_snoc (as : List Action) (a : Action) :
    (as ++ [a]).count Action.callBegin
      = as.count Action.callBegin + (if a = Action.callBegin then 1 else 0) := by
  simp [List.count_append, List.count_singleton]

/-- Executions with one call of `Begin`: before the call the runner is as built, after
it the invariant `Life` holds. -/
theorem life_of_run {acts : List Action} {s : State} (h : run acts newRunner = some s)
    (hone : acts.count Action.callBegin ≤ 1) :
    (acts.count Action.callBegin = 0 → s = newRunner) ∧
    (acts.count Action.callBegin = 1 → Life s) := by
  revert hone
  refine run_induction (P := fun as s => as.count Action.callBegin ≤ 1 →
      (as.count Action.callBegin = 0 → s = newRunner) ∧
      (as.count Action.callBegin = 1 → Life s)) ?_ ?_ acts s h
  · intro _; simp
  · intro as s a t _ ih hst hle
    rw [count_snoc] at hle ⊢
    by_cases hc : a = Action.callBegin
    · subst hc
      simp only [if_true] at hle ⊢
      have h0 : as.count Action.callBegin = 0 := by omega
      have hs := (ih (by omega)).1 h0
      subst hs
      obtain ⟨-, ht⟩ := step_newRunner hst
      subst ht
      exact ⟨by omega, fun _ => life_entered⟩
    · simp only [hc, if_false, Nat.add_zero] at hle ⊢
      obtain ⟨i0, i1⟩ := ih hle
      constructor
      · intro h0
        have hs := i0 h0
        subst hs
        exact absurd (step_newRunner hst).1 hc
      · intro h1
        exact life_step hst hc (i1 h1)


theorem run_nil (s : State) : run [] s = some s := rfl

theorem run_cons (a : Action) (as : List Action) (s : State) :
    run (a :: as) s = (step a s).bind (run as) := by
  simp only [run, runG, anyAction, if_true]
  cases step a s <;> rfl

theorem doneChan_step {a : Action} {s t : State} (h : step a s = some t)
    (hd : s.doneChan = true) : t.doneChan = true := by
  refine step_elim (motive := fun _ t => t.doneChan = true)
    ?_ ?_ ?_ ?_ ?_ ?_ ?_ ?_ ?_ ?_ ?_ ?_ ?_ ?_ ?_ ?_
    ?_ ?_ ?_ ?_ ?_ ?_ ?_ ?_ ?_ ?_ ?_ ?_ ?_ ?_ ?_ ?_ h
  all_goals (intros; first | assumption | rfl)

theorem doneChan_run {acts : List Action} {s t : State} (h : run acts s = some t)
    (hd : s.doneChan = true) : t.doneChan = true := by
  induction acts generalizing s with
  | nil => simp [run_nil] at h; subst h; exact hd
  | cons a as ih =>
    rw [run_cons] at h
    cases hst : step a s with
    | none => simp [hst] at h
    | some u =>
      simp only [hst, Option.some_bind] at h
      exact ih h (doneChan_step hst hd)

/-! ### C1: final teardown waits for reloads -/

/-- Only the `close` of line 95 closes `doneChan`. -/
theorem close_only_by_loop {a : Action} {s t : State} (h : step a s = some t)
    (hd : s.doneChan = false) (ht : t.doneChan = true) :
    a = Action.loopClose ∧ 0 < s.loopClose := by
  refine step_elim (motive := fun b t => t.doneChan = true →
      b = Action.loopClose ∧ 0 < s.loopClose)
    ?_ ?_ ?_ ?_ ?_ ?_ ?_ ?_ ?_ ?_ ?_ ?_ ?_ ?_ ?_ ?_
    ?_ ?_ ?_ ?_ ?_ ?_ ?_ ?_ ?_ ?_ ?_ ?_ ?_ ?_ ?_ ?_ h ht
  all_goals (intros; beta_reduce; intro hx; dsimp only at hx)
  all_goals first
    | exact ⟨rfl, by assumption⟩
    | (rw [hd] at hx; exact absurd hx (by decide))

/-- On a runner on which `Begin` was called at most once: the rescheduler is idle
between the return of `Wait` and the `close`, after the `close`, and whenever `Begin`
is past line 111. -/
theorem reload_idle_of_run {as : List Action} {u : State} (hu : run as newRunner = some u)
    (hle : as.count Action.callBegin ≤ 1) :
    (0 < u.loopClose → u.running = false ∧ u.pending = false ∧ u.worker = WorkerPc.off) ∧
    (u.doneChan = true →
      u.running = false ∧ u.pending = false ∧ u.worker = WorkerPc.off ∧ loops u = 0) ∧
    (pastDone u.beginPc = true →
      u.running = false ∧ u.pending = false ∧ u.worker = WorkerPc.off) := by
  obtain ⟨i0, i1⟩ := life_of_run hu hle
  rcases Nat.eq_zero_or_pos (as.count Action.callBegin) with h0 | hpos
  · have := i0 h0
    subst this
    simp [newRunner, loops]
  · have hl := i1 (by omega)
    have off : u.running = false → u.worker = WorkerPc.off := fun hr =>
      workerOn_eq_false.mp (hl.coherent.running ▸ hr)
    refine ⟨fun hc => ?_, fun hd => ?_, fun hp => ?_⟩
    · obtain ⟨a, b⟩ := hl.quiet.closing hc
      exact ⟨a, b, off a⟩
    · obtain ⟨a, b⟩ := hl.quiet.closed hd
      exact ⟨a, b, off a, hl.loop.closedLoop hd⟩
    · obtain ⟨a, b⟩ := hl.quiet.closed (hl.past hp)
      exact ⟨a, b, off a⟩

/-- C1 (amended): in every execution of a runner on which `Begin` has been called and
is not called a second time (with any signals, in every interleaving), under the
rescheduler of spec 4.2,
(1) from the return of `Wait` (line 93) to the `close` of line 95 no reload is running
or pending; (2) once `doneChan` is closed no reload is running or pending and no
run-loop goroutine is left to call `Run`; (3) whenever `Begin` is past the receive of
line 111, so in particular when `TearDown(true)` is called and while it executes, no
reload body is executing and none is pending; (4) this stays so in every
continuation: no reload starts after the close; and (5) `doneChan` is closed by no
step other than the `close` of line 95, taken with no reload running or pending. -/
theorem final_teardown_after_reloads (acts : List Action) (s : State)
    (h : run acts newRunner = some s) (hone : acts.count Action.callBegin ≤ 1) :
    (0 < s.loopClose → s.running = false ∧ s.pending = false ∧ s.worker = WorkerPc.off) ∧
    (s.doneChan = true →
      s.running = false ∧ s.pending = false ∧ s.worker = WorkerPc.off ∧ loops s = 0) ∧
    (pastDone s.beginPc = true →
      s.running = false ∧ s.pending = false ∧ s.worker = WorkerPc.off) ∧
    (∀ acts2 t, run acts2 s = some t → (acts ++ acts2).count Action.callBegin ≤ 1 →
      s.doneChan = true →
      t.doneChan = true ∧ t.running = false ∧ t.pending = false ∧
        t.worker = WorkerPc.off ∧ loops t = 0) ∧
    (∀ a t, step a s = some t → s.doneChan = false → t.doneChan = true →
      a = Action.loopClose ∧ s.running = false ∧ s.pending = false ∧
        s.worker = WorkerPc.off) := by
  obtain ⟨k1, k2, k3⟩ := reload_idle_of_run h hone
  refine ⟨k1, k2, k3, ?_, ?_⟩
  · intro acts2 t ht hle hd
    have hrun : run (acts ++ acts2) newRunner = some t := by
      rw [run_append, h]; exact ht
    have htd := doneChan_run ht hd
    exact ⟨htd, (reload_idle_of_run hrun hle).2.1 htd⟩
  · intro a t hst hd ht
    obtain ⟨ha, hc⟩ := close_only_by_loop hst hd ht
    exact ⟨ha, k1 hc⟩

/-! ### C2 and C4: exclusion holds once startup is over -/

theorem noEarlyReload_step {a : Action} {s t : State} (h : step a s = some t)
    (ha : a ≠ Action.callBegin) (hk : reloadAfterStartup s a = true)
    (hs : s.isStarting = startingAt s.beginPc) (hc : s.sigChan.isNone = preChan s.beginPc)
    (hr : s.running = workerOn s.worker)
    (hi : NoEarlyReload s) : NoEarlyReload t := by
  obtain ⟨h1, h2, h3, h4⟩ := hi
  refine step_elim (motive := fun b t => b ≠ Action.callBegin →
      reloadAfterStartup s b = true → NoEarlyReload t)
    ?_ ?_ ?_ ?_ ?_ ?_ ?_ ?_ ?_ ?_ ?_ ?_ ?_ ?_ ?_ ?_
    ?_ ?_ ?_ ?_ ?_ ?_ ?_ ?_ ?_ ?_ ?_ ?_ ?_ ?_ ?_ ?_ h ha hk
  all_goals (intros; beta_reduce; intro hne hok; clear h ha hk)
  all_goals first
    | contradiction
    | (refine ⟨?_, ?_, ?_, ?_⟩ <;> dsimp only at * <;>
        first
          | assumption
          | (simp_all [workerOn_eq_false]; done)
          | (cases hp : s.beginPc <;> simp_all [reloadAfterStartup, Starting]; done)
          | (rename_i g hsc; cases g <;> cases hp : s.beginPc <;>
              simp_all [reloadAfterStartup, Starting]))

theorem noEarlyReload_of_run {acts : List Action} {s : State}
    (h : runG reloadAfterStartup acts newRunner = some s)
    (hone : acts.count Action.callBegin ≤ 1) : NoEarlyReload s := by
  revert hone
  refine runG_induction (P := fun as s => as.count Action.callBegin ≤ 1 → NoEarlyReload s)
    ?_ ?_ acts s h
  · intro _
    refine ⟨?_, ?_, ?_, ?_⟩ <;> simp [newRunner]
  · intro as s a t hs ih hk hst hle
    rw [count_snoc] at hle
    by_cases hc : a = Action.callBegin
    · subst hc
      simp only [if_true] at hle
      have h0 : as.count Action.callBegin = 0 := by omega
      have hs0 := (life_of_run (run_of_runG hs) (by omega)).1 h0
      subst hs0
      obtain ⟨-, ht⟩ := step_newRunner hst
      subst ht
      refine ⟨?_, ?_, ?_, ?_⟩ <;> simp [newRunner]
    · simp only [hc, if_false, Nat.add_zero] at hle
      obtain ⟨i0, i1⟩ := life_of_run (run_of_runG hs) hle
      rcases Nat.eq_zero_or_pos (as.count Action.callBegin) with h0 | hpos
      · have hs0 := i0 h0
        subst hs0
        exact absurd (step_newRunner hst).1 hc
      · have hl := i1 (by omega)
        exact noEarlyReload_step hst hc hk hl.coherent.starting hl.chan hl.coherent.running
          (ih hle)

/-- C2 (amended): when no reload is signalled during startup, at most one `Daemon`
invocation is in progress in every reachable state of a runner on which `Begin` has
been called (and is not called a second time), for every interleaving of
`SignalReload` / `SignalShutdown` calls. -/
theorem no_overlapping_invocations (acts : List Action) (s : State)
    (h : runG reloadAfterStartup acts newRunner = some s)
    (hone : acts.count Action.callBegin ≤ 1) : inCall s ≤ 1 := by
  have hq := noEarlyReload_of_run h hone
  have hi := (reload_idle_of_run (run_of_runG h) hone).2.2
  unfold inCall
  by_cases hb : s.beginPc = BeginPc.L105run ∨ s.beginPc = BeginPc.L116run
  · have hw : s.worker = WorkerPc.off := by
      rcases hb with hb | hb
      · exact hq.worker (by simp [hb])
      · exact (hi (by simp [hb])).2.2
    simp only [hw]
    split <;> simp
  · simp only [hb, if_false]
    split <;> omega

/-- C4 (amended): when no reload is signalled during startup, at most one of
`isStarting`, `isReloading`, `isStopping` is true in every reachable state of a runner,
from construction to the return of `Begin` (one call of `Begin`). -/
theorem phase_flags_exclusive (acts : List Action) (s : State)
    (h : runG reloadAfterStartup acts newRunner = some s)
    (hone : acts.count Action.callBegin ≤ 1) :
    s.isStarting.toNat + s.isReloading.toNat + s.isStopping.toNat ≤ 1 := by
  have hq := noEarlyReload_of_run h hone
  have hi := (reload_idle_of_run (run_of_runG h) hone).2.2
  obtain ⟨i0, i1⟩ := life_of_run (run_of_runG h) hone
  rcases Nat.eq_zero_or_pos (acts.count Action.callBegin) with h0 | hpos
  · have := i0 h0
    subst this
    simp [newRunner]
  · have hl := (i1 (by omega)).coherent
    have hw1 : startupAt s.beginPc = true → s.isReloading = false := fun hp => by
      rw [hl.reloading, hq.worker hp]; rfl
    have hw2 : pastDone s.beginPc = true → s.isReloading = false := fun hp => by
      rw [hl.reloading, (hi hp).2.2]; rfl
    have hb := Bool.toNat_le s.isReloading
    rw [hl.starting, hl.stopping]
    cases hp : s.beginPc <;> simp [hp] at hw1 hw2 ⊢ <;> simp [*]

/-- C1 (counterexample): after a complete lifecycle (`doneChan` closed, no reload
running), `Begin` is called a second time on the same runner. Its run loop (line 83)
receives a `SIGHUP` and calls `Run`, the reload body starts `TearDown(false)`, and
`Begin`, which passes line 111 at once, calls `TearDown(true)` while `TearDown(false)` is
executing. -/
theorem second_begin_teardown_during_reload :
    (run fullLifecycle newRunner).map (fun s => (s.doneChan, s.running, s.worker))
      = some (true, false, WorkerPc.off) ∧
    (run (fullLifecycle ++
          [Action.callBegin, Action.beginStep, Action.beginStep, Action.beginStep,
           Action.signal Signal.SIGHUP, Action.loopRecv, Action.loopRun,
           Action.worker, Action.worker,
           Action.beginStep, Action.beginStep, Action.beginStep, Action.beginStep,
           Action.beginStep, Action.beginStep, Action.beginStep, Action.beginStep])
        newRunner).map
        (fun s => (s.beginPc, s.worker, s.running, s.doneChan, inCall s, s.calls))
      = some (BeginPc.L116run, WorkerPc.L136run, true, true, 2,
          [Call.BuildUp true, Call.TearDown true, Call.TearDown false, Call.BuildUp true,
           Call.TearDown true]) :=
  ⟨rfl, rfl⟩

/-- C1 (witness): the schedule `shutdownDuringReload`, in which the shutdown signal
arrives while `TearDown(false)` is executing. -/
theorem final_teardown_after_reloads_witness :
    run shutdownDuringReload newRunner = some finalTeardownAfterReload ∧
    shutdownDuringReload.count Action.callBegin ≤ 1 ∧
    pastDone finalTeardownAfterReload.beginPc = true ∧
    (finalTeardownAfterReload.running = false ∧ finalTeardownAfterReload.pending = false ∧
      finalTeardownAfterReload.worker = WorkerPc.off) :=
  ⟨by decide, by decide, by decide,
    (final_teardown_after_reloads shutdownDuringReload finalTeardownAfterReload
      (by decide) (by decide)).2.2.1 (by decide)⟩

/-- C2 (witness): the schedule `reloadAfterStart`, in which the reload is signalled
after startup and `TearDown(false)` is the one invocation in progress. -/
theorem no_overlapping_invocations_witness :
    runG reloadAfterStartup reloadAfterStart newRunner =
      some { newRunner with
        sigChan := some none, isReloading := true, isActive := true, running := true,
        beginPc := BeginPc.L111, loopSelect := 1, worker := WorkerPc.L136run,
        calls := [Call.BuildUp true, Call.TearDown false] } ∧
    reloadAfterStart.count Action.callBegin ≤ 1 ∧
    inCall { newRunner with
        sigChan := some none, isReloading := true, isActive := true, running := true,
        beginPc := BeginPc.L111, loopSelect := 1, worker := WorkerPc.L136run,
        calls := [Call.BuildUp true, Call.TearDown false] } ≤ 1 :=
  ⟨by decide, by decide, no_overlapping_invocations reloadAfterStart _ (by decide) (by decide)⟩

/-- C4 (witness): the schedule `startupSchedule` followed by the start of a reload:
`isReloading` is the one flag that is true. -/
theorem phase_flags_exclusive_witness :
    runG reloadAfterStartup
        (startupSchedule ++
          [Action.signal Signal.SIGHUP, Action.loopRecv, Action.loopRun, Action.worker])
        newRunner =
      some { newRunner with
        sigChan := some none, isReloading := true, isActive := true, running := true,
        beginPc := BeginPc.L111, loopSelect := 1, worker := WorkerPc.L136,
        calls := [Call.BuildUp true] } ∧
    (startupSchedule ++
      [Action.signal Signal.SIGHUP, Action.loopRecv, Action.loopRun, Action.worker]).count
        Action.callBegin ≤ 1 ∧
    false.toNat + true.toNat + false.toNat ≤ 1 :=
  ⟨by decide, by decide,
    phase_flags_exclusive
      (startupSchedule ++
        [Action.signal Signal.SIGHUP, Action.loopRecv, Action.loopRun, Action.worker])
      { newRunner with
        sigChan := some none, isReloading := true, isActive := true, running := true,
        beginPc := BeginPc.L111, loopSelect := 1, worker := WorkerPc.L136,
        calls := [Call.BuildUp true] } (by decide) (by decide)⟩

/-- C2 (counterexample): a reload signalled while the initial `BuildUp(true)` is
executing runs `TearDown(false)` at the same time: two `Daemon` invocations are in
progress, in an execution with one call of `Begin`. -/
theorem overlap_during_startup :
    (run [Action.callBegin, Action.beginStep, Action.beginStep, Action.beginStep,
          Action.beginStep, Action.signal Signal.SIGHUP, Action.loopRecv, Action.loopRun,
          Action.worker, Action.worker] newRunner).map
        (fun s => (s.beginPc, s.worker, s.calls, inCall s))
      = some (BeginPc.L105run, WorkerPc.L136run, [Call.BuildUp true, Call.TearDown false], 2) := by
  decide

/-- C4 (counterexample): a reload signalled before the initial `BuildUp(true)` has
returned sets `isReloading` while `isStarting` is still true. -/
theorem starting_and_reloading :
    (run [Action.callBegin, Action.beginStep, Action.beginStep, Action.beginStep,
          Action.signal Signal.SIGHUP, Action.loopRecv, Action.loopRun, Action.worker]
        newRunner).map (fun s => (s.isStarting, s.isReloading, s.isStopping))
      = some (true, true, false) := by
  decide

/-! ### C6: construction -/

/-- C6: `NewDaemonRunner` yields no runner exactly when the daemon or the logger is
nil; for a non-nil daemon and a non-nil logger it yields the new runner, on which
`Begin` can be called. -/
theorem newDaemonRunner_nil_iff {D L : Type} (daemonIn : Option D) (logger : Option L) :
    (NewDaemonRunner daemonIn logger = none ↔ (daemonIn = none ∨ logger = none)) ∧
    (∀ (d : D) (l : L), NewDaemonRunner (some d) (some l) = some newRunner) ∧
    (step Action.callBegin newRunner).isSome = true := by
  refine ⟨?_, fun _ _ => rfl, by decide⟩
  cases daemonIn <;> cases logger <;> simp [NewDaemonRunner]

/-! ### C10: the event queue is made by `Begin` -/

/-- C10 (counterexample): on the runner returned by `NewDaemonRunner`, before `Begin`,
`sigChan` is nil: `SignalReload` and `SignalShutdown` neither enqueue nor return. -/
theorem signal_before_begin_blocks :
    NewDaemonRunner (some ()) (some ()) = some newRunner ∧
    newRunner.sigChan = none ∧
    SignalReload newRunner = SendResult.blockedNil ∧
    SignalShutdown newRunner = SendResult.blockedNil ∧
    step (Action.signal Signal.SIGHUP) newRunner = none := by
  decide

theorem sigChan_step {a : Action} {s t : State} {n : Nat} (h : step a s = some t)
    (ha : a ≠ Action.callBegin)
    (hi : s.sigChan = none ↔ (n = 1 ∧ preChan s.beginPc = true)) :
    t.sigChan = none ↔ (n = 1 ∧ preChan t.beginPc = true) := by
  refine step_elim (motive := fun b t => b ≠ Action.callBegin →
      (t.sigChan = none ↔ (n = 1 ∧ preChan t.beginPc = true)))
    ?_ ?_ ?_ ?_ ?_ ?_ ?_ ?_ ?_ ?_ ?_ ?_ ?_ ?_ ?_ ?_
    ?_ ?_ ?_ ?_ ?_ ?_ ?_ ?_ ?_ ?_ ?_ ?_ ?_ ?_ ?_ ?_ h ha
  all_goals (intros; beta_reduce; intro hne; dsimp only)
  all_goals first
    | assumption
    | contradiction
    | simp_all

/-- In every execution, with any number of calls of `Begin`: `sigChan` is nil exactly
until the first `Begin` has executed line 82. -/
theorem sigChan_of_run {acts : List Action} {s : State} (h : run acts newRunner = some s) :
    (acts.count Action.callBegin = 0 → s = newRunner) ∧
    (1 ≤ acts.count Action.callBegin →
      (s.sigChan = none ↔ (acts.count Action.callBegin = 1 ∧ preChan s.beginPc = true))) := by
  refine run_induction (P := fun as s =>
      (as.count Action.callBegin = 0 → s = newRunner) ∧
      (1 ≤ as.count Action.callBegin →
        (s.sigChan = none ↔ (as.count Action.callBegin = 1 ∧ preChan s.beginPc = true))))
    ?_ ?_ acts s h
  · simp
  · intro as s a t _ ih hst
    obtain ⟨i0, i1⟩ := ih
    rw [count_snoc]
    by_cases hc : a = Action.callBegin
    · subst hc
      simp only [if_true]
      refine ⟨by omega, fun _ => ?_⟩
      rcases Nat.eq_zero_or_pos (as.count Action.callBegin) with h0 | hpos
      · have hs := i0 h0
        subst hs
        obtain ⟨-, ht⟩ := step_newRunner hst
        subst ht
        simp [h0, newRunner]
      · have hi := i1 hpos
        have hidle : s.beginPc = BeginPc.idle := by
          by_contra hne
          simp [step, beginEnter, hne] at hst
        have hsome : s.sigChan ≠ none := by
          intro hn
          have := (hi.mp hn).2
          simp [hidle] at this
        have ht : t.sigChan = s.sigChan := by
          simp only [step, beginEnter, hidle, if_true] at hst
          split at hst
          · simp at hst
          · cases hst; rfl
        rw [ht]
        constructor
        · intro hn; exact absurd hn hsome
        · intro hn; omega
    · simp only [hc, if_false, Nat.add_zero]
      constructor
      · intro h0
        have hs := i0 h0
        subst hs
        exact absurd (step_newRunner hst).1 hc
      · intro h1
        exact sigChan_step hst hc (i1 h1)

/-- C10 (amended): the event queue is made by `Begin` (line 82), not at construction.
In every execution `sigChan` is nil exactly until the first `Begin` has executed line
82, and a `SignalReload` / `SignalShutdown` call blocks forever when `sigChan` is nil,
enqueues its event and returns when the one-slot buffer is empty, and waits when the
buffer is full. -/
theorem event_queue_made_by_begin (acts : List Action) (s : State)
    (h : run acts newRunner = some s) :
    (s.sigChan = none ↔
      (acts.count Action.callBegin = 0 ∨
        (acts.count Action.callBegin = 1 ∧ preChan s.beginPc = true))) ∧
    (∀ sig, chanSend s sig = SendResult.blockedNil ↔ s.sigChan = none) ∧
    (∀ sig, chanSend s sig = SendResult.sent { s with sigChan := some (some sig) } ↔
      s.sigChan = some none) ∧
    (∀ sig, chanSend s sig = SendResult.blockedFull ↔ ∃ g, s.sigChan = some (some g)) ∧
    SignalReload s = chanSend s Signal.SIGHUP ∧
    SignalShutdown s = chanSend s Signal.SIGTERM := by
  obtain ⟨i0, i1⟩ := sigChan_of_run h
  refine ⟨?_, ?_, ?_, ?_, rfl, rfl⟩
  · rcases Nat.eq_zero_or_pos (acts.count Action.callBegin) with h0 | hpos
    · have hs := i0 h0
      subst hs
      simp [h0, newRunner]
    · rw [i1 hpos]
      constructor
      · intro hx; exact Or.inr hx
      · intro hx
        rcases hx with hx | hx
        · omega
        · exact hx
  · intro sig
    unfold chanSend
    split <;> simp_all
  · intro sig
    unfold chanSend
    split <;> simp_all
  · intro sig
    unfold chanSend
    split <;> simp_all

/-- C10 (witness): after `Begin` has executed line 82 the queue exists and is empty,
and a `SignalReload` call enqueues `SIGHUP` and returns. -/
theorem event_queue_made_by_begin_witness :
    run [Action.callBegin, Action.beginStep, Action.beginStep] newRunner =
      some { newRunner with sigChan := some none, isStarting := true, beginPc := BeginPc.L83 } ∧
    chanSend { newRunner with sigChan := some none, isStarting := true, beginPc := BeginPc.L83 }
        Signal.SIGHUP =
      SendResult.sent { newRunner with
        sigChan := some (some Signal.SIGHUP), isStarting := true, beginPc := BeginPc.L83 } :=
  ⟨by decide,
    ((event_queue_made_by_begin [Action.callBegin, Action.beginStep, Action.beginStep]
      { newRunner with sigChan := some none, isStarting := true, beginPc := BeginPc.L83 }
      (by decide)).2.2.1 Signal.SIGHUP).mpr rfl⟩

/-! ### C8: reload after shutdown -/

/-- After `Begin` has returned, on a runner on which it was called once, every step
other than a new call of `Begin` leaves the calls of the `Daemon` and the control
point of `Begin` as they are. -/
theorem returned_step {a : Action} {s t : State} (h : step a s = some t)
    (ha : a ≠ Action.callBegin) (hb : s.beginPc = BeginPc.idle)
    (hw : s.worker = WorkerPc.off) :
    t.calls = s.calls ∧ t.beginPc = BeginPc.idle := by
  refine step_elim (motive := fun b t => b ≠ Action.callBegin →
      t.calls = s.calls ∧ t.beginPc = BeginPc.idle)
    ?_ ?_ ?_ ?_ ?_ ?_ ?_ ?_ ?_ ?_ ?_ ?_ ?_ ?_ ?_ ?_
    ?_ ?_ ?_ ?_ ?_ ?_ ?_ ?_ ?_ ?_ ?_ ?_ ?_ ?_ ?_ ?_ h ha
  all_goals (intros; beta_reduce; intro hne; dsimp only)
  all_goals first
    | exact ⟨rfl, hb⟩
    | contradiction
    | simp_all

/-- C8 (amended): on a runner whose `Begin` has been called once and has returned, as
long as `Begin` is not called again, a subsequent `SignalReload` call (its send, and
every step any goroutine of the runner takes afterwards, in any order) causes no
`Daemon` call: `calls` is unchanged, so the counts of `BuildUp` and `TearDown`
invocations for both flag values are unchanged. -/
theorem reload_after_shutdown_is_noop (acts : List Action) (s : State)
    (h : run acts newRunner = some s) (hone : acts.count Action.callBegin = 1)
    (hret : s.beginPc = BeginPc.idle) :
    ∀ (acts2 : List Action) (t : State), run acts2 s = some t → Action.callBegin ∉ acts2 →
      t.calls = s.calls ∧
      (∀ c, t.calls.count c = s.calls.count c) ∧
      t.beginPc = BeginPc.idle := by
  intro acts2
  induction acts2 using List.reverseRecOn with
  | nil =>
    intro t ht _
    simp [run_nil] at ht
    subst ht
    exact ⟨rfl, fun _ => rfl, hret⟩
  | append_singleton as a ih =>
    intro t ht hno
    obtain ⟨u, hu, -, hst⟩ := runG_snoc.mp ht
    have hno1 : Action.callBegin ∉ as := fun hm => hno (List.mem_append_left _ hm)
    have hne : a ≠ Action.callBegin := fun he => hno (by simp [he])
    obtain ⟨hc, -, hb⟩ := ih u hu hno1
    have hrun : run (acts ++ as) newRunner = some u := by
      rw [run_append, h]; exact hu
    have hcount : (acts ++ as).count Action.callBegin ≤ 1 := by
      rw [List.count_append, hone, List.count_eq_zero_of_not_mem hno1]
    have hw := ((reload_idle_of_run hrun hcount).2.2 (by simp [hb])).2.2
    obtain ⟨hc2, hb2⟩ := returned_step hst hne hb hw
    exact ⟨hc2.trans hc, fun c => by rw [hc2, hc], hb2⟩

/-- C8 (counterexample): `Begin` is called a second time and returns while the run
loop it started has not yet taken a step; a `SignalReload` call that follows is
received by that run loop, and a reload cycle is carried out: `TearDown(false)` and
`BuildUp(false)` are called after `Begin` has returned. -/
theorem reload_after_second_begin_returned :
    (run (fullLifecycle ++ secondBegin) newRunner).map
        (fun s => (s.beginPc, s.loopSelect, s.calls))
      = some (BeginPc.idle, 1,
          [Call.BuildUp true, Call.TearDown true, Call.BuildUp true, Call.TearDown true]) ∧
    (run (fullLifecycle ++ secondBegin ++
          [Action.signal Signal.SIGHUP, Action.loopRecv, Action.loopRun] ++
          List.replicate 7 Action.worker) newRunner).map
        (fun s => (s.beginPc, s.calls))
      = some (BeginPc.idle,
          [Call.BuildUp true, Call.TearDown true, Call.BuildUp true, Call.TearDown true,
           Call.TearDown false, Call.BuildUp false]) :=
  ⟨rfl, rfl⟩

/-- C8 (witness): after the schedule `fullLifecycle` a `SignalReload` call puts
`SIGHUP` into the queue, and the calls of the `Daemon` stay
`[BuildUp(true), TearDown(true)]`. -/
theorem reload_after_shutdown_is_noop_witness :
    run fullLifecycle newRunner =
      some { newRunner with
        sigChan := some none, doneChan := true,
        calls := [Call.BuildUp true, Call.TearDown true] } ∧
    fullLifecycle.count Action.callBegin = 1 ∧
    run [Action.signal Signal.SIGHUP]
        { newRunner with
          sigChan := some none, doneChan := true,
          calls := [Call.BuildUp true, Call.TearDown true] } =
      some { newRunner with
        sigChan := some (some Signal.SIGHUP), doneChan := true,
        calls := [Call.BuildUp true, Call.TearDown true] } ∧
    [Call.BuildUp true, Call.TearDown true] = [Call.BuildUp true, Call.TearDown true] :=
  ⟨by decide, by decide, by decide,
    (reload_after_shutdown_is_noop fullLifecycle
      { newRunner with
        sigChan := some none, doneChan := true,
        calls := [Call.BuildUp true, Call.TearDown true] }
      (by decide) (by decide) rfl [Action.signal Signal.SIGHUP]
      { newRunner with
        sigChan := some (some Signal.SIGHUP), doneChan := true,
        calls := [Call.BuildUp true, Call.TearDown true] }
      (by decide) (by decide)).1⟩

/-! ### C5: the active flag -/

/-- C5 (counterexample): after a complete lifecycle (final teardown has begun and
ended, `Active()` is false), a second call of `Begin` on the same runner executes
line 108 again: `isActive` and `Active()` are true again. -/
theorem active_again_after_second_begin :
    (run fullLifecycle newRunner).map (fun s => (activePhase s, s.isActive, Active s))
      = some (2, false, false) ∧
    (run (fullLifecycle ++ startupSchedule) newRunner).map
        (fun s => (s.beginPc, s.isActive, Active s))
      = some (BeginPc.L111, true, true) := by
  decide

theorem activePhase_step {a : Action} {s t : State} (h : step a s = some t)
    (ha : a ≠ Action.callBegin) (hp : pastDone s.beginPc = true → s.doneChan = true) :
    activePhase s ≤ activePhase t := by
  refine step_elim (motive := fun b t => b ≠ Action.callBegin →
      activePhase s ≤ activePhase t)
    ?_ ?_ ?_ ?_ ?_ ?_ ?_ ?_ ?_ ?_ ?_ ?_ ?_ ?_ ?_ ?_
    ?_ ?_ ?_ ?_ ?_ ?_ ?_ ?_ ?_ ?_ ?_ ?_ ?_ ?_ ?_ ?_ h ha
  all_goals (intros; beta_reduce; intro hne)
  all_goals first
    | contradiction
    | exact Nat.le_refl _
    | (simp_all [activePhase]; done)
    | (cases hb : s.beginPc <;> simp_all [activePhase])

theorem activePhase_run {acts2 : List Action} :
    ∀ {acts1 : List Action} {s t : State}, run acts1 newRunner = some s →
      run acts2 s = some t → (acts1 ++ acts2).count Action.callBegin ≤ 1 →
      activePhase s ≤ activePhase t := by
  induction acts2 with
  | nil =>
    intro acts1 s t _ ht _
    simp [run_nil] at ht
    subst ht
    exact Nat.le_refl _
  | cons a as ih =>
    intro acts1 s t hs ht hle
    rw [run_cons] at ht
    cases hst : step a s with
    | none => simp [hst] at ht
    | some u =>
      simp only [hst, Option.some_bind] at ht
      have hu : run (acts1 ++ [a]) newRunner = some u := by
        rw [run_append, hs]
        simp [run_cons, run_nil, hst]
      have hle2 : ((acts1 ++ [a]) ++ as).count Action.callBegin ≤ 1 := by
        simpa using hle
      have hrest := ih hu ht hle2
      refine Nat.le_trans ?_ hrest
      have hle1 : acts1.count Action.callBegin ≤ 1 := by
        rw [List.count_append] at hle; omega
      obtain ⟨i0, i1⟩ := life_of_run hs hle1
      by_cases hc : a = Action.callBegin
      · subst hc
        have h0 : acts1.count Action.callBegin = 0 := by
          rw [List.count_append, List.count_cons_self] at hle; omega
        have := i0 h0
        subst this
        obtain ⟨-, hu2⟩ := step_newRunner hst
        subst hu2
        decide
      · rcases Nat.eq_zero_or_pos (acts1.count Action.callBegin) with h0 | hpos
        · have := i0 h0
          subst this
          exact absurd (step_newRunner hst).1 hc
        · exact activePhase_step hst hc (i1 (by omega)).past

/-- C5 (amended): on a runner on which `Begin` is not called a second time, for every
sequence of `SignalReload` / `SignalShutdown` calls: the phase of `isActive` (0 before
line 108, 1 from line 108 to line 112, 2 after line 112) never decreases, `isActive`
is true exactly in phase 1, so it goes false->true at most once and true->false at
most once, and once final teardown has begun `isActive` and `Active()` are false in
every later state. -/
theorem active_once (acts1 acts2 : List Action) (s t : State)
    (hs : run acts1 newRunner = some s) (ht : run acts2 s = some t)
    (hone : (acts1 ++ acts2).count Action.callBegin ≤ 1) :
    activePhase s ≤ activePhase t ∧
    (t.isActive = true ↔ activePhase t = 1) ∧
    (activePhase s = 2 → t.isActive = false ∧ Active t = false) := by
  have hmono := activePhase_run hs ht hone
  have hrun : run (acts1 ++ acts2) newRunner = some t := by
    rw [run_append, hs]; exact ht
  have hiff : t.isActive = true ↔ activePhase t = 1 := by
    obtain ⟨i0, i1⟩ := life_of_run hrun hone
    rcases Nat.eq_zero_or_pos ((acts1 ++ acts2).count Action.callBegin) with h0 | hpos
    · have := i0 h0
      subst this
      decide
    · have hl := i1 (by omega)
      rw [hl.coherent.active]
      unfold activePhase
      cases hb : t.beginPc <;> simp
      split <;> simp
  refine ⟨hmono, hiff, fun h2 => ?_⟩
  have hne : ¬ activePhase t = 1 := by
    have hle : activePhase t ≤ 2 := by
      unfold activePhase
      split <;> try split
      all_goals omega
    omega
  have hf : t.isActive = false := by
    cases hx : t.isActive
    · rfl
    · exact absurd (hiff.mp hx) hne
  exact ⟨hf, by simp [Active, hf]⟩

/-- C5 (witness): final teardown has begun (`Begin` at line 113) after the schedule
`startupSchedule`, a shutdown and two more statements of `Begin`; a `SignalReload`
call and the rest of `Begin` follow, and `Active()` is false at the end. -/
theorem active_once_witness :
    run (startupSchedule ++
          [Action.signal Signal.SIGTERM, Action.loopRecv, Action.loopWait, Action.loopClose,
           Action.beginStep, Action.beginStep]) newRunner = some teardownBegun ∧
    run [Action.signal Signal.SIGHUP, Action.beginStep, Action.beginStep, Action.beginStep,
         Action.beginStep, Action.beginStep] teardownBegun = some returnedReloadQueued ∧
    ((startupSchedule ++
          [Action.signal Signal.SIGTERM, Action.loopRecv, Action.loopWait, Action.loopClose,
           Action.beginStep, Action.beginStep]) ++
        [Action.signal Signal.SIGHUP, Action.beginStep, Action.beginStep, Action.beginStep,
         Action.beginStep, Action.beginStep]).count Action.callBegin ≤ 1 ∧
    activePhase teardownBegun = 2 ∧
    (returnedReloadQueued.isActive = false ∧ Active returnedReloadQueued = false) :=
  ⟨by decide, by decide, by decide, by decide,
    (active_once
      (startupSchedule ++
        [Action.signal Signal.SIGTERM, Action.loopRecv, Action.loopWait, Action.loopClose,
         Action.beginStep, Action.beginStep])
      [Action.signal Signal.SIGHUP, Action.beginStep, Action.beginStep, Action.beginStep,
       Action.beginStep, Action.beginStep]
      teardownBegun returnedReloadQueued
      (by decide) (by decide) (by decide)).2.2 (by decide)⟩

/-! ### C7: the lifecycle without reload -/

theorem plain_basic_step {a : Action} {s t : State} (h : step a s = some t)
    (hh : a ≠ Action.signal Signal.SIGHUP)
    (h1 : s.worker = WorkerPc.off) (h2 : s.loopHup = 0)
    (h3 : s.sigChan ≠ some (some Signal.SIGHUP)) :
    t.worker = WorkerPc.off ∧ t.loopHup = 0 ∧ t.sigChan ≠ some (some Signal.SIGHUP) := by
  refine step_elim (motive := fun b t => b ≠ Action.signal Signal.SIGHUP →
      t.worker = WorkerPc.off ∧ t.loopHup = 0 ∧ t.sigChan ≠ some (some Signal.SIGHUP))
    ?_ ?_ ?_ ?_ ?_ ?_ ?_ ?_ ?_ ?_ ?_ ?_ ?_ ?_ ?_ ?_
    ?_ ?_ ?_ ?_ ?_ ?_ ?_ ?_ ?_ ?_ ?_ ?_ ?_ ?_ ?_ ?_ h hh
  all_goals (intros; beta_reduce; intro hnh; dsimp only)
  all_goals first
    | exact ⟨h1, h2, h3⟩
    | simp_all

theorem plain_calls_step {a : Action} {s t : State} (h : step a s = some t)
    (ha : a ≠ Action.callBegin) (h1 : s.worker = WorkerPc.off)
    (hp : pastDone s.beginPc = true → s.doneChan = true)
    (h4 : s.calls = expectedCalls s) : t.calls = expectedCalls t := by
  refine step_elim (motive := fun b t => b ≠ Action.callBegin → t.calls = expectedCalls t)
    ?_ ?_ ?_ ?_ ?_ ?_ ?_ ?_ ?_ ?_ ?_ ?_ ?_ ?_ ?_ ?_
    ?_ ?_ ?_ ?_ ?_ ?_ ?_ ?_ ?_ ?_ ?_ ?_ ?_ ?_ ?_ ?_ h ha
  all_goals (intros; beta_reduce; intro hne)
  all_goals first
    | contradiction
    | exact h4
    | (simp_all [expectedCalls]; done)
    | (cases hb : s.beginPc <;> simp_all [expectedCalls])

set_option maxHeartbeats 1000000 in
theorem shutdownLeft_step {a : Action} {s t : State} (h : step a s = some t)
    (ha : a ≠ Action.callBegin) (hh : a ≠ Action.signal Signal.SIGHUP)
    (h1 : s.worker = WorkerPc.off)
    (h2 : s.loopHup = 0) (h3 : s.sigChan ≠ some (some Signal.SIGHUP))
    (hc : s.sigChan.isNone = preChan s.beginPc)
    (l1 : loops s ≤ 1) (l2 : s.doneChan = true → loops s = 0)
    (hs : isShutdownSend a = true → shutdownLeft s = 4) :
    shutdownLeft t + (if a = Action.beginStep then 0 else 1) = shutdownLeft s ∧
    (isShutdownSend a = false → a ≠ Action.beginStep → shutdownLeft s ≠ 4) := by
  refine step_elim (motive := fun b t => b ≠ Action.callBegin →
      b ≠ Action.signal Signal.SIGHUP →
      (isShutdownSend b = true → shutdownLeft s = 4) →
      shutdownLeft t + (if b = Action.beginStep then 0 else 1) = shutdownLeft s ∧
      (isShutdownSend b = false → b ≠ Action.beginStep → shutdownLeft s ≠ 4))
    ?_ ?_ ?_ ?_ ?_ ?_ ?_ ?_ ?_ ?_ ?_ ?_ ?_ ?_ ?_ ?_
    ?_ ?_ ?_ ?_ ?_ ?_ ?_ ?_ ?_ ?_ ?_ ?_ ?_ ?_ ?_ ?_ h ha hh hs
  all_goals (intros; beta_reduce; intro hne hnh hsn; clear h ha hh hs)
  all_goals first
    | contradiction
    | exact ⟨rfl, fun _ hx => absurd rfl hx⟩
    | (simp only [shutdownLeft, bufferFull, loops, if_true, if_false] at *
       cases hd : s.doneChan <;> simp_all <;> (try split_ifs at *) <;>
         omega)
    | (rename_i g hsc
       simp only [shutdownLeft, bufferFull, loops, if_true, if_false] at *
       cases g <;> cases hd : s.doneChan <;> simp_all [isShutdownSend] <;>
         (try split_ifs at *) <;> omega)

theorem beginLeft_step {a : Action} {s t : State} (h : step a s = some t)
    (ha : a ≠ Action.callBegin) (hp : pastDone s.beginPc = true → s.doneChan = true) :
    beginLeft t + (if a = Action.beginStep then 1 else 0) = beginLeft s := by
  refine step_elim (motive := fun b t => b ≠ Action.callBegin →
      beginLeft t + (if b = Action.beginStep then 1 else 0) = beginLeft s)
    ?_ ?_ ?_ ?_ ?_ ?_ ?_ ?_ ?_ ?_ ?_ ?_ ?_ ?_ ?_ ?_
    ?_ ?_ ?_ ?_ ?_ ?_ ?_ ?_ ?_ ?_ ?_ ?_ ?_ ?_ ?_ ?_ h ha
  all_goals (intros; beta_reduce; intro hne)
  all_goals first
    | contradiction
    | rfl
    | (simp_all [beginLeft]; done)
    | (cases hb : s.beginPc <;> simp_all [beginLeft])

theorem shutdownSends_snoc (as : List Action) (a : Action) :
    shutdownSends (as ++ [a]) = shutdownSends as + (if isShutdownSend a = true then 1 else 0) := by
  simp [shutdownSends, List.countP_append, List.countP_cons]

theorem shutdownLeft_le (s : State) : shutdownLeft s ≤ 4 := by
  unfold shutdownLeft
  split_ifs <;> omega

/-- Lifecycles with one call of `Begin`, no reload event and at most one shutdown
event: the invariants `Life` and `Plain` hold, and every step uses up one of the 19
steps of the lifecycle. -/
theorem plain_of_run {acts : List Action} {s : State} (h : run acts newRunner = some s)
    (hone : acts.count Action.callBegin ≤ 1)
    (hnohup : Action.signal Signal.SIGHUP ∉ acts)
    (hterm : shutdownSends acts ≤ 1) :
    (acts.count Action.callBegin = 0 → acts = [] ∧ s = newRunner) ∧
    (acts.count Action.callBegin = 1 → Life s ∧ Plain (shutdownSends acts) s) ∧
    acts.length + stepsLeft s = 19 := by
  revert hone hnohup hterm
  refine run_induction (P := fun as s => as.count Action.callBegin ≤ 1 →
      Action.signal Signal.SIGHUP ∉ as → shutdownSends as ≤ 1 →
      (as.count Action.callBegin = 0 → as = [] ∧ s = newRunner) ∧
      (as.count Action.callBegin = 1 → Life s ∧ Plain (shutdownSends as) s) ∧
      as.length + stepsLeft s = 19) ?_ ?_ acts s h
  · intro _ _ _
    refine ⟨fun _ => ⟨rfl, rfl⟩, fun hx => by simp at hx, by decide⟩
  · intro as s a t _ ih hst hle hno hte
    rw [count_snoc] at hle ⊢
    rw [shutdownSends_snoc] at hte ⊢
    have hno1 : Action.signal Signal.SIGHUP ∉ as := fun hm => hno (List.mem_append_left _ hm)
    have hnh : a ≠ Action.signal Signal.SIGHUP := fun he => hno (by simp [he])
    obtain ⟨i0, i1, i2⟩ := ih (by omega) hno1 (by omega)
    by_cases hc : a = Action.callBegin
    · subst hc
      simp only [if_true] at hle ⊢
      have h0 : as.count Action.callBegin = 0 := by omega
      obtain ⟨hnil, hs⟩ := i0 h0
      subst hnil hs
      obtain ⟨-, ht⟩ := step_newRunner hst
      subst ht
      refine ⟨by omega, fun _ => ⟨life_entered, ?_⟩, by decide⟩
      refine ⟨rfl, rfl, by decide, rfl, by decide⟩
    · simp only [hc, if_false, Nat.add_zero] at hle ⊢
      rcases Nat.eq_zero_or_pos (as.count Action.callBegin) with h0 | hpos
      · obtain ⟨-, hs⟩ := i0 h0
        subst hs
        exact absurd (step_newRunner hst).1 hc
      · have h1 : as.count Action.callBegin = 1 := by omega
        obtain ⟨hl, hp⟩ := i1 h1
        have hsend : isShutdownSend a = true → shutdownLeft s = 4 := by
          intro hx
          have hn0 : shutdownSends as = 0 := by
            simp only [hx, if_true] at hte; omega
          have := hp.sent
          rw [hn0] at this
          by_contra hne
          simp [hne] at this
        obtain ⟨hm, hm2⟩ := shutdownLeft_step hst hc hnh hp.worker hp.loopHup hp.buffer hl.chan
          hl.loop.oneLoop hl.loop.closedLoop hsend
        have hb := beginLeft_step hst hc hl.past
        obtain ⟨b1, b2, b3⟩ := plain_basic_step hst hnh hp.worker hp.loopHup hp.buffer
        refine ⟨fun hx => by omega, fun _ => ⟨life_step hst hc hl, ⟨b1, b2, b3, ?_, ?_⟩⟩, ?_⟩
        · exact plain_calls_step hst hc hp.worker hl.past hp.calls
        · have hsent := hp.sent
          by_cases hx : isShutdownSend a = true
          · have hab : a ≠ Action.beginStep := by
              intro he; subst he; simp [isShutdownSend] at hx
            simp only [hx, if_true, hab, if_false] at hm ⊢
            have h4 := hsend hx
            rw [h4] at hsent hm
            simp only [if_true] at hsent
            have : shutdownLeft t ≠ 4 := by omega
            simp [this, hsent]
          · simp only [hx, if_false, Nat.add_zero]
            by_cases hab : a = Action.beginStep
            · simp only [hab, if_true, Nat.add_zero] at hm
              rw [hm]; exact hsent
            · have hne4 := hm2 (by simpa using hx) hab
              simp only [hab, if_false] at hm
              have hle4 := shutdownLeft_le s
              have : shutdownLeft t ≠ 4 := by omega
              simp only [hne4, if_false] at hsent
              simp [this, hsent]
        · simp only [List.length_append, List.length_singleton, stepsLeft] at i2 ⊢
          by_cases hab : a = Action.beginStep
          · simp only [hab, if_true, Nat.add_zero] at hm hb
            omega
          · simp only [hab, if_false, Nat.add_zero] at hm hb
            omega

theorem beginStep_enabled {s : State} (hp : s.panicked = false)
    (hi : s.beginPc ≠ BeginPc.idle) (hw : s.beginPc = BeginPc.L111 → s.doneChan = true) :
    (step Action.beginStep s).isSome = true := by
  simp only [step, hp, Bool.false_eq_true, if_false, beginNext]
  cases hb : s.beginPc <;> simp_all

/-- In a lifecycle with no reload event, as long as `Begin` has not returned some
permitted action is enabled: the call of `Begin`, the next statement of `Begin`, the
one shutdown send, or the next step of the run loop. -/
theorem plain_progress {acts : List Action} {s : State} (h : run acts newRunner = some s)
    (hone : acts.count Action.callBegin ≤ 1)
    (hnohup : Action.signal Signal.SIGHUP ∉ acts)
    (hterm : shutdownSends acts ≤ 1) (hleft : 0 < stepsLeft s) :
    ∃ a, (step a s).isSome = true ∧ a ≠ Action.signal Signal.SIGHUP ∧
      (a = Action.callBegin → acts.count Action.callBegin = 0) ∧
      (isShutdownSend a = true → shutdownSends acts = 0) := by
  obtain ⟨i0, i1, -⟩ := plain_of_run h hone hnohup hterm
  rcases Nat.eq_zero_or_pos (acts.count Action.callBegin) with h0 | hpos
  · obtain ⟨-, hs⟩ := i0 h0
    subst hs
    exact ⟨Action.callBegin, by decide, by decide, fun _ => h0, (fun hx => absurd hx (by decide))⟩
  · obtain ⟨hl, hp⟩ := i1 (by omega)
    have halive := hl.loop.alive
    by_cases hidle : s.beginPc = BeginPc.idle
    · exfalso
      have hd := hl.past (by simp [hidle])
      simp [stepsLeft, beginLeft, shutdownLeft, hidle, hd] at hleft
    by_cases hwait : s.beginPc = BeginPc.L111 ∧ s.doneChan = false
    · obtain ⟨h111, hd⟩ := hwait
      have hloops := hl.loop.spawned (by simp [h111]) hd
      have h2 := hp.loopHup
      have hrun : s.running = false := by
        rw [hl.coherent.running, hp.worker]; rfl
      have hpend : s.pending = false := by
        cases hx : s.pending
        · rfl
        · have := hl.coherent.pending hx
          rw [hrun] at this
          exact absurd this (by decide)
      simp only [loops] at hloops
      by_cases hc : 0 < s.loopClose
      · refine ⟨Action.loopClose, ?_, by decide, (fun hx => absurd hx (by decide)), (fun hx => absurd hx (by decide))⟩
        simp [step, halive, loopCloseDone, hc, hd]
      by_cases hterm2 : 0 < s.loopTerm
      · refine ⟨Action.loopWait, ?_, by decide, (fun hx => absurd hx (by decide)), (fun hx => absurd hx (by decide))⟩
        simp [step, halive, loopWaitReturn, hterm2, schedWaitReady, hrun, hpend]
      have hsel : 0 < s.loopSelect := by omega
      have hchan : s.sigChan ≠ none := by
        intro hn
        have := hl.chan
        simp [hn, h111] at this
      cases hsc : s.sigChan with
      | none => exact absurd hsc hchan
      | some b =>
        cases b with
        | none =>
          refine ⟨Action.signal Signal.SIGTERM, ?_, by decide, (fun hx => absurd hx (by decide)), fun _ => ?_⟩
          · simp [step, halive, chanSend, hsc]
          · have := hp.sent
            have h4 : shutdownLeft s = 4 := by
              simp [shutdownLeft, hd, hc, hterm2, bufferFull, hsc]
            simpa [h4] using this
        | some g =>
          refine ⟨Action.loopRecv, ?_, by decide, (fun hx => absurd hx (by decide)), (fun hx => absurd hx (by decide))⟩
          cases g <;> simp [step, halive, loopReceive, hsel, hsc]
    · refine ⟨Action.beginStep, beginStep_enabled halive hidle ?_, by decide, (fun hx => absurd hx (by decide)),
        (fun hx => absurd hx (by decide))⟩
      intro h111
      by_contra hd
      exact hwait ⟨h111, by simpa using hd⟩

/-- C7: a lifecycle on a new runner with no reload event and one shutdown event, in
every interleaving of the caller of `Begin`, the sender of the shutdown event and the
run loop. (1) The `Daemon` has received exactly the calls `expectedCalls`: nothing
before line 105, `[BuildUp(true)]` from line 105 to line 116, and
`[BuildUp(true), TearDown(true)]` from line 116 on; no reload goroutine exists.
(2) The accessors are determined by the control point of `Begin`: `Starting()` is true
from line 77 to line 106, so during `BuildUp(true)`; `Active()` is true from line 108
to line 112, so while `Begin` waits for `doneChan`; `Stopping()` is true from line 113
to line 119, so during `TearDown(true)`, when `Active()` is false.
(3) The lifecycle has exactly 19 steps: every step uses up one, as long as one is left
some permitted step is enabled, and none is left exactly when `Begin` has returned,
with calls `[BuildUp(true), TearDown(true)]` and all four accessors false. -/
theorem begin_lifecycle (acts : List Action) (s : State)
    (h : run acts newRunner = some s)
    (hone : acts.count Action.callBegin ≤ 1)
    (hnohup : Action.signal Signal.SIGHUP ∉ acts)
    (hterm : shutdownSends acts ≤ 1) :
    (s.calls = expectedCalls s ∧ s.worker = WorkerPc.off) ∧
    (Starting s = startingAt s.beginPc ∧ Active s = activeAt s.beginPc ∧
      Stopping s = stoppingAt s.beginPc ∧ Reloading s = false) ∧
    (s.beginPc = BeginPc.L105run → Starting s = true ∧ s.calls = [Call.BuildUp true]) ∧
    (s.beginPc = BeginPc.L111 → Active s = true ∧ s.calls = [Call.BuildUp true]) ∧
    (s.beginPc = BeginPc.L116run → Stopping s = true ∧ Active s = false ∧
      s.calls = [Call.BuildUp true, Call.TearDown true]) ∧
    acts.length + stepsLeft s = 19 ∧
    (0 < stepsLeft s →
      ∃ a, (step a s).isSome = true ∧ a ≠ Action.signal Signal.SIGHUP ∧
        (a = Action.callBegin → acts.count Action.callBegin = 0) ∧
        (isShutdownSend a = true → shutdownSends acts = 0)) ∧
    (stepsLeft s = 0 ↔ (s.beginPc = BeginPc.idle ∧ acts.count Action.callBegin = 1)) ∧
    (stepsLeft s = 0 →
      s.calls = [Call.BuildUp true, Call.TearDown true] ∧ Starting s = false ∧
        Reloading s = false ∧ Stopping s = false ∧ Active s = false) := by
  obtain ⟨i0, i1, i2⟩ := plain_of_run h hone hnohup hterm
  have hprog := plain_progress h hone hnohup hterm
  have base : (s.calls = expectedCalls s ∧ s.worker = WorkerPc.off) ∧
      (Starting s = startingAt s.beginPc ∧ Active s = activeAt s.beginPc ∧
        Stopping s = stoppingAt s.beginPc ∧ Reloading s = false) ∧
      (s.beginPc = BeginPc.idle ∧ acts.count Action.callBegin = 1 → s.doneChan = true) := by
    rcases Nat.eq_zero_or_pos (acts.count Action.callBegin) with h0 | hpos
    · obtain ⟨-, hs⟩ := i0 h0
      subst hs
      refine ⟨by decide, by decide, fun hx => by omega⟩
    · obtain ⟨hl, hp⟩ := i1 (by omega)
      have hr : s.isReloading = false := by
        rw [hl.coherent.reloading, hp.worker]; rfl
      refine ⟨⟨hp.calls, hp.worker⟩, ⟨hl.coherent.starting, ?_, hl.coherent.stopping, hr⟩,
        fun hx => hl.past (by simp [hx.1])⟩
      simp [Active, hr, hl.coherent.active]
  obtain ⟨⟨b1, b2⟩, ⟨b3, b4, b5, b6⟩, b7⟩ := base
  have hzero : stepsLeft s = 0 ↔ (s.beginPc = BeginPc.idle ∧ acts.count Action.callBegin = 1) := by
    constructor
    · intro hz
      have hb : beginLeft s = 0 := by simp only [stepsLeft] at hz; omega
      have hidle : s.beginPc = BeginPc.idle ∧ s.doneChan = true := by
        unfold beginLeft at hb
        cases hpc : s.beginPc <;> simp [hpc] at hb
        exact ⟨rfl, hb⟩
      refine ⟨hidle.1, ?_⟩
      rcases Nat.eq_zero_or_pos (acts.count Action.callBegin) with h0 | hpos
      · obtain ⟨-, hs⟩ := i0 h0
        subst hs
        exact absurd hz (by decide)
      · omega
    · intro hx
      have hd := b7 hx
      simp [stepsLeft, beginLeft, shutdownLeft, hx.1, hd]
  refine ⟨⟨b1, b2⟩, ⟨b3, b4, b5, b6⟩, ?_, ?_, ?_, i2, hprog, hzero, ?_⟩
  · intro hpc
    rw [b3, b1]
    simp [hpc, expectedCalls]
  · intro hpc
    rw [b4, b1]
    simp [hpc, expectedCalls]
  · intro hpc
    rw [b5, b4, b1]
    simp [hpc, expectedCalls]
  · intro hz
    have hx := hzero.mp hz
    have hd := b7 hx
    rw [b3, b4, b5, b6, b1]
    simp [hx.1, hd, expectedCalls]

/-- C7 (witness): the schedule `fullLifecycle`. -/
theorem begin_lifecycle_witness :
    run fullLifecycle newRunner =
      some { newRunner with
        sigChan := some none, doneChan := true,
        calls := [Call.BuildUp true, Call.TearDown true] } ∧
    fullLifecycle.count Action.callBegin ≤ 1 ∧
    Action.signal Signal.SIGHUP ∉ fullLifecycle ∧
    shutdownSends fullLifecycle ≤ 1 ∧
    fullLifecycle.length +
      stepsLeft { newRunner with
        sigChan := some none, doneChan := true,
        calls := [Call.BuildUp true, Call.TearDown true] } = 19 :=
  ⟨by decide, by decide, by decide, by decide,
    (begin_lifecycle fullLifecycle
      { newRunner with
        sigChan := some none, doneChan := true,
        calls := [Call.BuildUp true, Call.TearDown true] }
      (by decide) (by decide) (by decide) (by decide)).2.2.2.2.2.1⟩

/-! ### C3: coalescing -/

theorem coherent_of_run {acts : List Action} {s t : State} (hs : Coherent s)
    (h : run acts s = some t) : Coherent t := by
  induction acts generalizing s with
  | nil => simp [run_nil] at h; subst h; exact hs
  | cons a as ih =>
    rw [run_cons] at h
    cases hst : step a s with
    | none => simp [hst] at h
    | some u =>
      simp only [hst, Option.some_bind] at h
      exact ih (coherent_step hst hs) h

theorem count_tearDown_append (l : List Call) (c : Call) :
    (l ++ [c]).count (Call.TearDown false)
      = l.count (Call.TearDown false) + (if c = Call.TearDown false then 1 else 0) := by
  simp [List.count_append, List.count_singleton]

set_option maxHeartbeats 1000000 in
theorem reloadsDue_step {a : Action} {s t : State} (h : step a s = some t)
    (hr : s.running = workerOn s.worker) (hp : s.pending = true → s.running = true) :
    reloadsDue t = reloadsDue s + (if a = Action.loopRun ∧ s.pending = false then 1 else 0) ∧
    (noCompletion s a = true →
      runCapacity t + (if a = Action.loopRun ∧ s.pending = false then 1 else 0)
        = runCapacity s) := by
  refine step_elim (motive := fun b t =>
      reloadsDue t = reloadsDue s + (if b = Action.loopRun ∧ s.pending = false then 1 else 0) ∧
      (noCompletion s b = true →
        runCapacity t + (if b = Action.loopRun ∧ s.pending = false then 1 else 0)
          = runCapacity s))
    ?_ ?_ ?_ ?_ ?_ ?_ ?_ ?_ ?_ ?_ ?_ ?_ ?_ ?_ ?_ ?_
    ?_ ?_ ?_ ?_ ?_ ?_ ?_ ?_ ?_ ?_ ?_ ?_ ?_ ?_ ?_ ?_ h
  all_goals (intros; beta_reduce; clear h)
  all_goals
    (simp only [reloadsDue, bodyStarted, reloadCycles, runCapacity, noCompletion,
      count_tearDown_append] at *
     first
      | (simp; done)
      | (simp_all [workerOn_eq_false]; done)
      | (cases hq : s.pending <;> simp_all [workerOn_eq_false]))

theorem coherent_reachable {acts : List Action} {s : State}
    (h : run acts newRunner = some s) : Coherent s :=
  coherent_of_run coherent_newRunner h

/-- While the executing reload does not complete, `n` calls of `Run` add
`min n (runCapacity s)` executions. -/
theorem reloadsDue_noCompletion {acts : List Action} {s : State} (hs : Coherent s) :
    ∀ {t : State}, runG noCompletion acts s = some t →
      Coherent t ∧
      reloadsDue t = reloadsDue s + min (acts.count Action.loopRun) (runCapacity s) ∧
      runCapacity t + min (acts.count Action.loopRun) (runCapacity s) = runCapacity s := by
  intro t h
  refine runG_induction (P := fun as u => Coherent u ∧
      reloadsDue u = reloadsDue s + min (as.count Action.loopRun) (runCapacity s) ∧
      runCapacity u + min (as.count Action.loopRun) (runCapacity s) = runCapacity s)
    ?_ ?_ acts t h
  · simp [hs]
  · intro as u a v _ ih hk hst
    obtain ⟨hc, hd, hcap⟩ := ih
    obtain ⟨e1, e2⟩ := reloadsDue_step hst hc.running hc.pending
    have e3 := e2 hk
    refine ⟨coherent_step hst hc, ?_⟩
    have hcount : (as ++ [a]).count Action.loopRun
        = as.count Action.loopRun + (if a = Action.loopRun then 1 else 0) := by
      simp [List.count_append, List.count_singleton]
    rw [hcount, e1]
    by_cases ha : a = Action.loopRun
    · have hcapu : runCapacity u = 0 ↔ u.pending = true := by
        unfold runCapacity
        cases hq : u.pending <;> cases hr : u.running <;> simp
        have := hc.pending hq
        simp [hr] at this
      by_cases hq : u.pending = false
      · have hpos : 0 < runCapacity u := by
          rcases Nat.eq_zero_or_pos (runCapacity u) with h0 | h0
          · have := hcapu.mp h0; simp [hq] at this
          · exact h0
        simp only [ha, hq, and_self, if_true] at e3 ⊢
        omega
      · have h0 : runCapacity u = 0 := hcapu.mpr (by simpa using hq)
        simp only [ha, hq, and_false, if_false, if_true, Nat.add_zero] at e3 ⊢
        omega
    · simp only [ha, false_and, if_false, Nat.add_zero] at e3 ⊢
      omega

/-- Without a call of `Run`, the number of executions started or owed is constant. -/
theorem reloadsDue_quiet {acts : List Action} :
    ∀ {s t : State}, Coherent s → run acts s = some t → Action.loopRun ∉ acts →
      reloadsDue t = reloadsDue s := by
  induction acts with
  | nil => intro s t _ h _; simp [run_nil] at h; subst h; rfl
  | cons a as ih =>
    intro s t hc h hno
    rw [run_cons] at h
    cases hst : step a s with
    | none => simp [hst] at h
    | some u =>
      simp only [hst, Option.some_bind] at h
      have ha : a ≠ Action.loopRun := fun he => hno (by simp [he])
      have hno1 : Action.loopRun ∉ as := fun hm => hno (List.mem_cons_of_mem _ hm)
      rw [ih (coherent_step hst hc) h hno1, (reloadsDue_step hst hc.running hc.pending).1]
      simp [ha]

theorem reloadsDue_idle {s : State} (hc : Coherent s) (hr : s.running = false) :
    reloadsDue s = reloadCycles s := by
  have hw : s.worker = WorkerPc.off := workerOn_eq_false.mp (hc.running ▸ hr)
  have hp : s.pending = false := by
    cases hq : s.pending
    · rfl
    · have := hc.pending hq; simp [hr] at this
  simp [reloadsDue, bodyStarted, hw, hp]

/-- Left alone, the reload goroutine takes `workerLeft` steps and then the rescheduler
is idle. -/
theorem worker_drains : ∀ (n : Nat) {s : State}, Coherent s → s.panicked = false →
    workerLeft s = n →
    ∃ t, run (List.replicate n Action.worker) s = some t ∧ t.running = false := by
  intro n
  induction n with
  | zero =>
    intro s hc _ h0
    refine ⟨s, rfl, ?_⟩
    rw [hc.running]
    unfold workerLeft at h0
    cases hw : s.worker <;> simp [hw] at h0 ⊢
  | succ n ih =>
    intro s hc hp hn
    have key : ∃ u, step Action.worker s = some u ∧ workerLeft u = n ∧ u.panicked = false := by
      have hpr := hc.pending
      rw [hc.running] at hpr
      unfold workerLeft at hn
      cases hw : s.worker <;> cases hq : s.pending <;>
        simp [hw, hq] at hn hpr <;>
        simp [step, hp, workerNext, hw, schedFinish, hq, workerLeft] <;> omega
    obtain ⟨u, hu, hl, hpu⟩ := key
    obtain ⟨t, ht, hr⟩ := ih (coherent_step hu hc) hpu hl
    refine ⟨t, ?_, hr⟩
    rw [List.replicate_succ, run_cons, hu]
    exact ht

/-- C3 (counterexample): three `SignalReload` calls have all returned before the first
reload has executed a statement (reload goroutine at line 134, no `TearDown(false)` yet,
third event still in the queue), and the runner then performs three reload cycles. -/
theorem three_signals_three_cycles :
    (run (startupSchedule ++
          [Action.signal Signal.SIGHUP, Action.loopRecv, Action.loopRun,
           Action.signal Signal.SIGHUP, Action.loopRecv, Action.loopRun,
           Action.signal Signal.SIGHUP]) newRunner).map
        (fun s => (s.worker, s.sigChan, reloadCycles s))
      = some (WorkerPc.L134, some (some Signal.SIGHUP), 0) ∧
    threeSignalsThreeCycles.count (Action.signal Signal.SIGHUP) = 3 ∧
    (run threeSignalsThreeCycles newRunner).map
        (fun s => (reloadCycles s, s.running, s.calls))
      = some (3, false,
          [Call.BuildUp true, Call.TearDown false, Call.BuildUp false, Call.TearDown false,
           Call.BuildUp false, Call.TearDown false, Call.BuildUp false]) := by
  decide

/-- C3 (amended): coalescing in the rescheduler. From a reachable state `s`, let `n`
calls of `Run` (line 90) be made while the executing reload does not complete, and
none afterwards; when the rescheduler is idle again, the reload body has been executed
`min n (runCapacity s)` more times than were started or owed at `s`. In particular
(1) for every `n >= 1`, `n` calls of `Run` while a reload body is executing (none
owed) cause exactly one additional execution, and (2) three calls of `Run` on an idle
rescheduler before the first reload completes yield exactly two reload cycles. The
idle state is reached when the reload goroutine is left to run. -/
theorem run_calls_coalesce (acts0 acts1 acts2 : List Action) (s s1 t : State)
    (h0 : run acts0 newRunner = some s)
    (h1 : runG noCompletion acts1 s = some s1)
    (h2 : run acts2 s1 = some t) (hno : Action.loopRun ∉ acts2)
    (hidle : t.running = false) :
    reloadCycles t = reloadsDue s + min (acts1.count Action.loopRun) (runCapacity s) ∧
    (s.running = true → s.pending = false → 1 ≤ acts1.count Action.loopRun →
      reloadCycles t = bodyStarted s + 1) ∧
    (s.running = false → acts1.count Action.loopRun = 3 →
      reloadCycles t = reloadCycles s + 2) ∧
    (s1.panicked = false →
      ∃ u, run (List.replicate (workerLeft s1) Action.worker) s1 = some u ∧
        u.running = false ∧
        reloadCycles u = reloadsDue s + min (acts1.count Action.loopRun) (runCapacity s)) := by
  have hc := coherent_reachable h0
  obtain ⟨hc1, hd1, -⟩ := reloadsDue_noCompletion hc h1
  have main : ∀ {acts : List Action} {v : State}, run acts s1 = some v →
      Action.loopRun ∉ acts → v.running = false →
      reloadCycles v = reloadsDue s + min (acts1.count Action.loopRun) (runCapacity s) := by
    intro acts v hv hn hr
    rw [← reloadsDue_idle (coherent_of_run hc1 hv) hr, reloadsDue_quiet hc1 hv hn, hd1]
  have hmain := main h2 hno hidle
  refine ⟨hmain, ?_, ?_, ?_⟩
  · intro hr hp hn
    rw [hmain]
    have hcap : runCapacity s = 1 := by simp [runCapacity, hr, hp]
    have hdue : reloadsDue s = bodyStarted s := by simp [reloadsDue, hp]
    rw [hcap, hdue, Nat.min_eq_right hn]
  · intro hr hn
    rw [hmain, reloadsDue_idle hc hr, hn]
    simp [runCapacity, hr]
  · intro hp
    obtain ⟨u, hu, hru⟩ := worker_drains (workerLeft s1) hc1 hp rfl
    refine ⟨u, hu, hru, main hu ?_ hru⟩
    intro hm
    have := List.eq_of_mem_replicate hm
    exact absurd this (by decide)

/-- C3 (witness): after startup three events are handed to the rescheduler before the
first reload completes (`threeRunsDuringFirst`), and the reload goroutine then takes
its 13 remaining steps: two reload cycles. -/
theorem run_calls_coalesce_witness :
    run startupSchedule newRunner =
      some { newRunner with
        sigChan := some none, isActive := true, beginPc := BeginPc.L111, loopSelect := 1,
        calls := [Call.BuildUp true] } ∧
    runG noCompletion threeRunsDuringFirst
        { newRunner with
          sigChan := some none, isActive := true, beginPc := BeginPc.L111, loopSelect := 1,
          calls := [Call.BuildUp true] } =
      some { newRunner with
        sigChan := some none, isActive := true, isReloading := true, running := true,
        pending := true, beginPc := BeginPc.L111, loopSelect := 1, worker := WorkerPc.L136,
        calls := [Call.BuildUp true] } ∧
    run (List.replicate 13 Action.worker)
        { newRunner with
          sigChan := some none, isActive := true, isReloading := true, running := true,
          pending := true, beginPc := BeginPc.L111, loopSelect := 1, worker := WorkerPc.L136,
          calls := [Call.BuildUp true] } =
      some { newRunner with
        sigChan := some none, isActive := true, beginPc := BeginPc.L111, loopSelect := 1,
        calls := [Call.BuildUp true, Call.TearDown false, Call.BuildUp false,
                  Call.TearDown false, Call.BuildUp false] } ∧
    Action.loopRun ∉ List.replicate 13 Action.worker ∧
    reloadCycles { newRunner with
        sigChan := some none, isActive := true, beginPc := BeginPc.L111, loopSelect := 1,
        calls := [Call.BuildUp true, Call.TearDown false, Call.BuildUp false,
                  Call.TearDown false, Call.BuildUp false] } =
      reloadCycles { newRunner with
        sigChan := some none, isActive := true, beginPc := BeginPc.L111, loopSelect := 1,
        calls := [Call.BuildUp true] } + 2 :=
  ⟨by decide, by decide, by decide, by decide,
    (run_calls_coalesce startupSchedule threeRunsDuringFirst (List.replicate 13 Action.worker)
      { newRunner with
        sigChan := some none, isActive := true, beginPc := BeginPc.L111, loopSelect := 1,
        calls := [Call.BuildUp true] }
      { newRunner with
        sigChan := some none, isActive := true, isReloading := true, running := true,
        pending := true, beginPc := BeginPc.L111, loopSelect := 1, worker := WorkerPc.L136,
        calls := [Call.BuildUp true] }
      { newRunner with
        sigChan := some none, isActive := true, beginPc := BeginPc.L111, loopSelect := 1,
        calls := [Call.BuildUp true, Call.TearDown false, Call.BuildUp false,
                  Call.TearDown false, Call.BuildUp false] }
      (by decide) (by decide) (by decide) (by decide) rfl).2.2.1 rfl (by decide)⟩

/-! ### C9: reloads one after the other -/

theorem noShutdown_step {a : Action} {s t : State} (h : step a s = some t)
    (hk : serialReload s a = true) (hi : NoShutdown s) : NoShutdown t := by
  obtain ⟨h1, h2, h3, h4⟩ := hi
  refine step_elim (motive := fun b t => serialReload s b = true → NoShutdown t)
    ?_ ?_ ?_ ?_ ?_ ?_ ?_ ?_ ?_ ?_ ?_ ?_ ?_ ?_ ?_ ?_
    ?_ ?_ ?_ ?_ ?_ ?_ ?_ ?_ ?_ ?_ ?_ ?_ ?_ ?_ ?_ ?_ h hk
  all_goals (intros; beta_reduce; intro hok)
  all_goals first
    | exact ⟨h1, h2, h3, h4⟩
    | (exfalso; simp_all; done)
    | (refine ⟨?_, ?_, ?_, ?_⟩ <;> dsimp only <;> first | assumption | (simp_all; done))
    | (rename_i g hsc; cases g <;> simp [serialReload] at hok
       refine ⟨h1, h2, h3, ?_⟩
       intro g hg
       simp at hg
       exact hg.symm)

@[simp]
theorem reloadInBody_at :
    reloadInBody WorkerPc.off = false ∧ reloadInBody WorkerPc.L134 = true ∧
      reloadInBody WorkerPc.L136 = true ∧ reloadInBody WorkerPc.L136run = true ∧
      reloadInBody WorkerPc.L139 = true ∧ reloadInBody WorkerPc.L139run = true ∧
      reloadInBody WorkerPc.L141 = true ∧ reloadInBody WorkerPc.finish = false := by
  simp [reloadInBody]

set_option maxHeartbeats 2000000 in
theorem outstanding_step {a : Action} {s t : State} {c : Nat} (h : step a s = some t)
    (ha : a ≠ Action.callBegin) (hk : serialReload s a = true)
    (hr : s.running = workerOn s.worker) (hp : s.pending = true → s.running = true)
    (hn : NoShutdown s)
    (h1 : outstanding s ≤ 1)
    (h2 : s.beginPc ≠ BeginPc.L111 → c = 0 ∧ outstanding s = 0 ∧ s.worker = WorkerPc.off) :
    outstanding t + (if a = Action.worker ∧ s.worker = WorkerPc.L141 then 1 else 0)
      = outstanding s + (if a = Action.signal Signal.SIGHUP then 1 else 0) ∧
    (t.beginPc ≠ BeginPc.L111 →
      c + (if a = Action.worker ∧ s.worker = WorkerPc.L141 then 1 else 0) = 0 ∧
        outstanding t = 0 ∧ t.worker = WorkerPc.off) := by
  obtain ⟨n1, n2, n3, n4⟩ := hn
  have hcase : s.beginPc = BeginPc.L111 ∨
      (s.beginPc ≠ BeginPc.L111 ∧ c = 0 ∧ outstanding s = 0 ∧ s.worker = WorkerPc.off) := by
    by_cases hx : s.beginPc = BeginPc.L111
    · exact Or.inl hx
    · exact Or.inr ⟨hx, h2 hx⟩
  clear h2
  refine step_elim (motive := fun b t => b ≠ Action.callBegin → serialReload s b = true →
      outstanding t + (if b = Action.worker ∧ s.worker = WorkerPc.L141 then 1 else 0)
        = outstanding s + (if b = Action.signal Signal.SIGHUP then 1 else 0) ∧
      (t.beginPc ≠ BeginPc.L111 →
        c + (if b = Action.worker ∧ s.worker = WorkerPc.L141 then 1 else 0) = 0 ∧
          outstanding t = 0 ∧ t.worker = WorkerPc.off))
    ?_ ?_ ?_ ?_ ?_ ?_ ?_ ?_ ?_ ?_ ?_ ?_ ?_ ?_ ?_ ?_
    ?_ ?_ ?_ ?_ ?_ ?_ ?_ ?_ ?_ ?_ ?_ ?_ ?_ ?_ ?_ ?_ h ha hk
  all_goals (intros; beta_reduce; intro hne hok; clear h ha hk)
  all_goals first
    | contradiction
    | (simp only [outstanding, hupQueued] at *
       rcases hcase with hpc | ⟨hpc, hc0, ho, hw⟩ <;>
       first
        | (simp_all [workerOn_eq_false] <;> omega)
        | (cases hq : s.pending <;> (simp_all [workerOn_eq_false]; omega)))
    | (rename_i g hsc
       simp only [outstanding, hupQueued] at *
       cases (g : Signal) <;> simp_all [serialReload, outstanding, hupQueued])

theorem serial_calls_step {a : Action} {s t : State} {c : Nat} (h : step a s = some t)
    (ha : a ≠ Action.callBegin) (hd : s.doneChan = false)
    (hpast : pastDone s.beginPc = true → s.doneChan = true)
    (hr : s.running = workerOn s.worker)
    (h2 : s.beginPc ≠ BeginPc.L111 → c = 0 ∧ outstanding s = 0 ∧ s.worker = WorkerPc.off)
    (h3 : s.calls = startCalls s.beginPc ++ reloadTrace c ++ bodyCalls s.worker) :
    t.calls = startCalls t.beginPc
      ++ reloadTrace (c + if a = Action.worker ∧ s.worker = WorkerPc.L141 then 1 else 0)
      ++ bodyCalls t.worker := by
  refine step_elim (motive := fun b t => b ≠ Action.callBegin →
      t.calls = startCalls t.beginPc
        ++ reloadTrace (c + if b = Action.worker ∧ s.worker = WorkerPc.L141 then 1 else 0)
        ++ bodyCalls t.worker)
    ?_ ?_ ?_ ?_ ?_ ?_ ?_ ?_ ?_ ?_ ?_ ?_ ?_ ?_ ?_ ?_
    ?_ ?_ ?_ ?_ ?_ ?_ ?_ ?_ ?_ ?_ ?_ ?_ ?_ ?_ ?_ ?_ h ha
  all_goals (intros; beta_reduce; intro hne; clear h ha)
  all_goals first
    | contradiction
    | simp_all [startCalls, bodyCalls, reloadTrace, workerOn_eq_false]

set_option maxHeartbeats 2000000 in
theorem serialLeft_step {a : Action} {s t : State} (h : step a s = some t)
    (ha : a ≠ Action.callBegin) (hk : serialReload s a = true)
    (hr : s.running = workerOn s.worker) (hp : s.pending = true → s.running = true)
    (hpast : pastDone s.beginPc = true → s.doneChan = true)
    (hn : NoShutdown s) (h1 : outstanding s ≤ 1)
    (h2 : s.beginPc ≠ BeginPc.L111 → outstanding s = 0 ∧ s.worker = WorkerPc.off) :
    serialLeft t + 1 = serialLeft s + (if a = Action.signal Signal.SIGHUP then 10 else 0) := by
  obtain ⟨n1, n2, n3, n4⟩ := hn
  have hcase : s.beginPc = BeginPc.L111 ∨
      (s.beginPc ≠ BeginPc.L111 ∧ outstanding s = 0 ∧ s.worker = WorkerPc.off) := by
    by_cases hx : s.beginPc = BeginPc.L111
    · exact Or.inl hx
    · exact Or.inr ⟨hx, h2 hx⟩
  clear h2
  refine step_elim (motive := fun b t => b ≠ Action.callBegin → serialReload s b = true →
      serialLeft t + 1 = serialLeft s + (if b = Action.signal Signal.SIGHUP then 10 else 0))
    ?_ ?_ ?_ ?_ ?_ ?_ ?_ ?_ ?_ ?_ ?_ ?_ ?_ ?_ ?_ ?_
    ?_ ?_ ?_ ?_ ?_ ?_ ?_ ?_ ?_ ?_ ?_ ?_ ?_ ?_ ?_ ?_ h ha hk
  all_goals (intros; beta_reduce; intro hne hok; clear h ha hk)
  all_goals first
    | contradiction
    | (simp only [serialLeft, workerLeft, outstanding, hupQueued] at *
       rcases hcase with hpc | ⟨hpc, ho, hw⟩ <;>
       first
        | (simp_all [workerOn_eq_false, startLeft] <;> omega)
        | (cases hq : s.pending <;> (simp_all [workerOn_eq_false, startLeft]; omega)))
    | (rename_i g hsc
       simp only [serialLeft, workerLeft, outstanding, hupQueued] at *
       cases (g : Signal) <;> simp_all [serialReload, outstanding, hupQueued, startLeft] <;>
         omega)

theorem hupSends_snoc (as : List Action) (a : Action) :
    hupSends (as ++ [a]) = hupSends as + (if a = Action.signal Signal.SIGHUP then 1 else 0) := by
  simp [hupSends, List.count_append, List.count_singleton]

/-- Executions under the discipline of C9 with one call of `Begin`. -/
theorem serial_of_run {acts : List Action} {s : State}
    (h : runG serialReload acts newRunner = some s)
    (hone : acts.count Action.callBegin ≤ 1) :
    (acts.count Action.callBegin = 0 → acts = [] ∧ s = newRunner) ∧
    (acts.count Action.callBegin = 1 →
      NoShutdown s ∧ ∃ c, Serial c s ∧ c + outstanding s = hupSends acts) ∧
    acts.length + serialLeft s = 8 + 10 * hupSends acts := by
  revert hone
  refine runG_induction (P := fun as s => as.count Action.callBegin ≤ 1 →
      (as.count Action.callBegin = 0 → as = [] ∧ s = newRunner) ∧
      (as.count Action.callBegin = 1 →
        NoShutdown s ∧ ∃ c, Serial c s ∧ c + outstanding s = hupSends as) ∧
      as.length + serialLeft s = 8 + 10 * hupSends as) ?_ ?_ acts s h
  · intro _
    refine ⟨fun _ => ⟨rfl, rfl⟩, fun hx => by simp at hx, by decide⟩
  · intro as s a t hs ih hk hst hle
    rw [count_snoc] at hle ⊢
    rw [hupSends_snoc]
    obtain ⟨i0, i1, i2⟩ := ih (by omega)
    by_cases hc : a = Action.callBegin
    · subst hc
      simp only [if_true] at hle ⊢
      have h0 : as.count Action.callBegin = 0 := by omega
      obtain ⟨hnil, hs0⟩ := i0 h0
      subst hnil hs0
      obtain ⟨-, ht⟩ := step_newRunner hst
      subst ht
      refine ⟨by omega, fun _ => ⟨?_, 0, ?_, by decide⟩, by decide⟩
      · exact ⟨rfl, rfl, rfl, by intro g hg; simp [newRunner] at hg⟩
      · exact ⟨by decide, fun _ => ⟨rfl, by decide, rfl⟩, by decide⟩
    · simp only [hc, if_false, Nat.add_zero] at hle ⊢
      rcases Nat.eq_zero_or_pos (as.count Action.callBegin) with h0 | hpos
      · obtain ⟨-, hs0⟩ := i0 h0
        subst hs0
        exact absurd (step_newRunner hst).1 hc
      · have h1 : as.count Action.callBegin = 1 := by omega
        obtain ⟨hn, c, hser, hbal⟩ := i1 h1
        have hl := (life_of_run (run_of_runG hs) (by omega)).2 h1
        obtain ⟨e1, e2⟩ := outstanding_step hst hc hk hl.coherent.running hl.coherent.pending
          hn hser.one hser.early
        have e3 := serial_calls_step hst hc hn.doneChan hl.past hl.coherent.running
          hser.early hser.calls
        have e4 := serialLeft_step hst hc hk hl.coherent.running hl.coherent.pending hl.past
          hn hser.one (fun hx => (hser.early hx).2)
        have hsend : a = Action.signal Signal.SIGHUP → outstanding s = 0 := by
          intro he
          subst he
          simp [serialReload] at hk
          exact hk.2
        refine ⟨fun hx => by omega, fun _ => ⟨noShutdown_step hst hk hn, ?_⟩, ?_⟩
        · refine ⟨c + (if a = Action.worker ∧ s.worker = WorkerPc.L141 then 1 else 0),
            ⟨?_, e2, e3⟩, by omega⟩
          have h1s := hser.one
          by_cases he : a = Action.signal Signal.SIGHUP
          · have := hsend he
            simp only [he, if_true] at e1
            omega
          · simp only [he, if_false, Nat.add_zero] at e1
            omega
        · simp only [List.length_append, List.length_singleton]
          by_cases he : a = Action.signal Signal.SIGHUP
          · simp only [he, if_true] at e4 ⊢
            omega
          · simp only [he, if_false, Nat.add_zero] at e4 ⊢
            omega

theorem serialReload_internal {s : State} {a : Action} (h : ∀ g, a ≠ Action.signal g) :
    serialReload s a = true := by
  cases a <;> simp [serialReload]
  exact absurd rfl (h _)

/-- Under the discipline of C9, as long as the runner is not started or a signalled
reload has not completed, some goroutine of the runner can take a step. -/
theorem serial_progress {acts : List Action} {s : State}
    (h : runG serialReload acts newRunner = some s)
    (hone : acts.count Action.callBegin ≤ 1) (hleft : 0 < serialLeft s) :
    ∃ a, (step a s).isSome = true ∧ (∀ g, a ≠ Action.signal g) ∧
      (a = Action.callBegin → acts.count Action.callBegin = 0) := by
  obtain ⟨i0, i1, -⟩ := serial_of_run h hone
  rcases Nat.eq_zero_or_pos (acts.count Action.callBegin) with h0 | hpos
  · obtain ⟨-, hs⟩ := i0 h0
    subst hs
    exact ⟨Action.callBegin, by decide, fun g => by simp, fun _ => h0⟩
  · have h1 : acts.count Action.callBegin = 1 := by omega
    obtain ⟨hn, c, hser, -⟩ := i1 h1
    have hl := (life_of_run (run_of_runG h) hone).2 h1
    have halive := hl.loop.alive
    by_cases hpc : s.beginPc = BeginPc.L111
    · by_cases hw : s.worker = WorkerPc.off
      · have hpend : s.pending = false := by
          cases hq : s.pending
          · rfl
          · have := hl.coherent.pending hq
            rw [hl.coherent.running, hw] at this
            exact absurd this (by decide)
        by_cases hh : 0 < s.loopHup
        · refine ⟨Action.loopRun, ?_, fun g => by simp, fun hx => absurd hx (by decide)⟩
          simp [step, halive, loopSchedule, hh]
        · have hq : hupQueued s = 1 := by
            simp only [serialLeft, workerLeft, hpc, hw, hpend, startLeft] at hleft
            have : hupQueued s ≤ 1 := by unfold hupQueued; split <;> omega
            simp at hleft
            omega
          have hsc : s.sigChan = some (some Signal.SIGHUP) := by
            unfold hupQueued at hq
            by_contra hx
            simp [hx] at hq
          have hloops := hl.loop.spawned (by simp [hpc]) hn.doneChan
          simp only [loops, hn.loopTerm, hn.loopClose] at hloops
          have hsel : 0 < s.loopSelect := by omega
          refine ⟨Action.loopRecv, ?_, fun g => by simp, fun hx => absurd hx (by decide)⟩
          simp [step, halive, loopReceive, hsel, hsc]
      · refine ⟨Action.worker, ?_, fun g => by simp, fun hx => absurd hx (by decide)⟩
        simp only [step, halive, Bool.false_eq_true, if_false, workerNext]
        cases hx : s.worker <;> simp_all
    · have hidle : s.beginPc ≠ BeginPc.idle := by
        intro hx
        have := hl.past (by simp [hx])
        rw [hn.doneChan] at this
        exact absurd this (by decide)
      exact ⟨Action.beginStep, beginStep_enabled halive hidle (fun hx => absurd hx hpc),
        fun g => by simp, fun hx => absurd hx (by decide)⟩

/-- Under the discipline of C9 the signalled reloads complete: from every reachable
state some continuation without further signal reaches a state in which nothing is
left to do. -/
theorem serial_settles : ∀ (n : Nat) {acts : List Action} {s : State},
    runG serialReload acts newRunner = some s → acts.count Action.callBegin ≤ 1 →
    serialLeft s = n →
    ∃ acts2 t, runG serialReload (acts ++ acts2) newRunner = some t ∧
      hupSends (acts ++ acts2) = hupSends acts ∧
      (acts ++ acts2).count Action.callBegin ≤ 1 ∧ serialLeft t = 0 := by
  intro n
  induction n with
  | zero =>
    intro acts s h hone hz
    exact ⟨[], s, by simpa using h, by simp, by simpa using hone, hz⟩
  | succ n ih =>
    intro acts s h hone hn
    obtain ⟨a, hen, hint, hcb⟩ := serial_progress h hone (by omega)
    obtain ⟨u, hu⟩ := Option.isSome_iff_exists.mp hen
    have hrun : runG serialReload (acts ++ [a]) newRunner = some u :=
      runG_snoc.mpr ⟨s, h, serialReload_internal hint, hu⟩
    have hcount : (acts ++ [a]).count Action.callBegin ≤ 1 := by
      rw [count_snoc]
      by_cases hc : a = Action.callBegin
      · have := hcb hc
        simp [hc, this]
      · simp only [hc, if_false]; omega
    have hsends : hupSends (acts ++ [a]) = hupSends acts := by
      rw [hupSends_snoc]
      simp [hint Signal.SIGHUP]
    have m1 := (serial_of_run h hone).2.2
    have m2 := (serial_of_run hrun hcount).2.2
    rw [hsends, List.length_append, List.length_singleton] at m2
    obtain ⟨acts3, t, ht, hs3, hc3, hz⟩ := ih hrun hcount (by omega)
    refine ⟨a :: acts3, t, ?_, ?_, ?_, hz⟩
    · simpa using ht
    · have : acts ++ a :: acts3 = (acts ++ [a]) ++ acts3 := by simp
      rw [this, hs3, hsends]
    · have : acts ++ a :: acts3 = (acts ++ [a]) ++ acts3 := by simp
      rw [this]; exact hc3

theorem count_reloadTrace (c : Nat) :
    (reloadTrace c).count (Call.TearDown true) = 0 ∧
    (reloadTrace c).count (Call.BuildUp true) = 0 := by
  induction c with
  | zero => simp [reloadTrace]
  | succ n ih => simp [reloadTrace, List.count_append, ih]

/-- Under the discipline of C9, a state in which nothing is left to do is the started
runner after exactly as many reload cycles as reloads were signalled, and the next
reload may be signalled. -/
theorem serial_quiescent {acts : List Action} {s : State}
    (h : runG serialReload acts newRunner = some s)
    (hone : acts.count Action.callBegin ≤ 1) (hz : serialLeft s = 0) :
    s.calls = Call.BuildUp true :: reloadTrace (hupSends acts) ∧
    Reloading s = false ∧ Active s = true ∧
    serialReload s (Action.signal Signal.SIGHUP) = true ∧
    (step (Action.signal Signal.SIGHUP) s).isSome = true := by
  obtain ⟨i0, i1, -⟩ := serial_of_run h hone
  rcases Nat.eq_zero_or_pos (acts.count Action.callBegin) with h0 | hpos
  · obtain ⟨-, hs⟩ := i0 h0
    subst hs
    exact absurd hz (by decide)
  · have h1 : acts.count Action.callBegin = 1 := by omega
    obtain ⟨hn, c, hser, hbal⟩ := i1 h1
    have hl := (life_of_run (run_of_runG h) hone).2 h1
    simp only [serialLeft, workerLeft] at hz
    have hstart : startLeft s.beginPc = 0 := by omega
    have hqz : hupQueued s = 0 := by omega
    have hhz : s.loopHup = 0 := by omega
    have hwz : s.worker = WorkerPc.off := by
      cases hw : s.worker <;> simp [hw] at hz
      rfl
    have hpz : s.pending = false := by
      cases hq : s.pending
      · rfl
      · simp [hq] at hz
    have hpc : s.beginPc = BeginPc.L111 := by
      have hp := hl.past
      rw [hn.doneChan] at hp
      cases hb : s.beginPc <;> simp [hb, startLeft] at hstart hp ⊢
    have hout : outstanding s = 0 := by
      simp [outstanding, hqz, hhz, hpz, hwz]
    have hc : c = hupSends acts := by omega
    have hr : s.isReloading = false := by rw [hl.coherent.reloading, hwz]; rfl
    have ha : s.isActive = true := by rw [hl.coherent.active, hpc]; rfl
    refine ⟨?_, hr, by simp [Active, hr, ha], by simp [serialReload, hpc, hout], ?_⟩
    · rw [hser.calls, hpc, hwz, hc]
      simp [startCalls, bodyCalls]
    · have hch := hl.chan
      rw [hpc] at hch
      cases hsc : s.sigChan with
      | none => simp [hsc] at hch
      | some b =>
        cases b with
        | none => simp [step, hl.loop.alive, chanSend, hsc]
        | some g =>
          have := hn.buffer g hsc
          subst this
          simp [hupQueued, hsc] at hqz

/-- C9: on a runner with one call of `Begin`, let reloads be signalled only when the
runner is started and the previous reload cycle has completed (and no shutdown be
signalled meanwhile), `k` of them so far.
(1) The calls of the `Daemon` are `BuildUp(true)`, then the completed cycles, each
exactly `TearDown(false)` followed by `BuildUp(false)`, then the calls of the cycle in
progress; completed cycles plus outstanding requests are `k`, and at most one request
is outstanding. (2) `isReloading` is true exactly from the assignment of line 134 to
the one of line 141, so from before `TearDown(false)` until after `BuildUp(false)`, and
false otherwise. (3) No reload calls `BuildUp(true)` or `TearDown(true)`.
(4) Startup takes 8 steps and every reload 10, and as long as one is left some
goroutine can take a step; when none is left the runner is started, not reloading, and
has performed exactly `k` reload cycles, and the next reload may be signalled; such a
state is reached along some continuation without further signal. -/
theorem serial_reloads (acts : List Action) (s : State)
    (h : runG serialReload acts newRunner = some s)
    (hone : acts.count Action.callBegin ≤ 1) :
    (∃ c, c + outstanding s = hupSends acts ∧
      s.calls = startCalls s.beginPc ++ reloadTrace c ++ bodyCalls s.worker) ∧
    outstanding s ≤ 1 ∧
    Reloading s = reloadingAt s.worker ∧
    (s.calls.count (Call.TearDown true) = 0 ∧ s.calls.count (Call.BuildUp true) ≤ 1) ∧
    acts.length + serialLeft s = 8 + 10 * hupSends acts ∧
    (0 < serialLeft s →
      ∃ a, (step a s).isSome = true ∧ (∀ g, a ≠ Action.signal g) ∧
        (a = Action.callBegin → acts.count Action.callBegin = 0)) ∧
    (serialLeft s = 0 →
      s.calls = Call.BuildUp true :: reloadTrace (hupSends acts) ∧
      Reloading s = false ∧ Active s = true ∧
      serialReload s (Action.signal Signal.SIGHUP) = true ∧
      (step (Action.signal Signal.SIGHUP) s).isSome = true) ∧
    (∃ acts2 t, runG serialReload (acts ++ acts2) newRunner = some t ∧
      hupSends (acts ++ acts2) = hupSends acts ∧ serialLeft t = 0 ∧
      t.calls = Call.BuildUp true :: reloadTrace (hupSends acts)) := by
  obtain ⟨i0, i1, i2⟩ := serial_of_run h hone
  have trace : (∃ c, c + outstanding s = hupSends acts ∧
      s.calls = startCalls s.beginPc ++ reloadTrace c ++ bodyCalls s.worker) ∧
      outstanding s ≤ 1 := by
    rcases Nat.eq_zero_or_pos (acts.count Action.callBegin) with h0 | hpos
    · obtain ⟨hnil, hs⟩ := i0 h0
      subst hnil hs
      exact ⟨⟨0, by decide, by decide⟩, by decide⟩
    · obtain ⟨-, c, hser, hbal⟩ := i1 (by omega)
      exact ⟨⟨c, hbal, hser.calls⟩, hser.one⟩
  obtain ⟨⟨c, hbal, hcalls⟩, hle⟩ := trace
  refine ⟨⟨c, hbal, hcalls⟩, hle, ?_, ?_, i2, serial_progress h hone,
    serial_quiescent h hone, ?_⟩
  · exact (coherent_reachable (run_of_runG h)).reloading
  · obtain ⟨c1, c2⟩ := count_reloadTrace c
    rw [hcalls]
    simp only [List.count_append, c1, c2]
    constructor
    · cases hb : s.beginPc <;> cases hw : s.worker <;> simp [startCalls, bodyCalls]
    · cases hb : s.beginPc <;> cases hw : s.worker <;> simp [startCalls, bodyCalls]
  · obtain ⟨acts2, t, ht, hs2, hc2, hz⟩ := serial_settles (serialLeft s) h hone rfl
    refine ⟨acts2, t, ht, hs2, hz, ?_⟩
    rw [← hs2]
    exact (serial_quiescent ht hc2 hz).1

/-- C9 (witness): startup followed by two reloads, each signalled after the previous
one has completed: the calls are `BuildUp(true)` and two reload cycles. -/
theorem serial_reloads_witness :
    runG serialReload (startupSchedule ++ oneReload ++ oneReload) newRunner =
      some { newRunner with
        sigChan := some none, isActive := true, beginPc := BeginPc.L111, loopSelect := 1,
        calls := [Call.BuildUp true, Call.TearDown false, Call.BuildUp false,
                  Call.TearDown false, Call.BuildUp false] } ∧
    (startupSchedule ++ oneReload ++ oneReload).count Action.callBegin ≤ 1 ∧
    (startupSchedule ++ oneReload ++ oneReload).length +
        serialLeft { newRunner with
          sigChan := some none, isActive := true, beginPc := BeginPc.L111, loopSelect := 1,
          calls := [Call.BuildUp true, Call.TearDown false, Call.BuildUp false,
                    Call.TearDown false, Call.BuildUp false] } =
      8 + 10 * hupSends (startupSchedule ++ oneReload ++ oneReload) :=
  ⟨by decide, by decide,
    (serial_reloads (startupSchedule ++ oneReload ++ oneReload)
      { newRunner with
        sigChan := some none, isActive := true, beginPc := BeginPc.L111, loopSelect := 1,
        calls := [Call.BuildUp true, Call.TearDown false, Call.BuildUp false,
                  Call.TearDown false, Call.BuildUp false] }
      (by decide) (by decide)).2.2.2.2.1⟩

end DaemonHelper
